import Mathlib

/-!
# libjahspotify: the native bridge `JahSpotify.c`

A shallow embedding of the parts of `src/native/src/main/native/src/JahSpotify.c`
that carry behaviour of their own: the pending-load list (`addLoading`,
`checkLoaded`), the dispatch of the session event loop, `track_ended`, `doPlay`,
`music_delivery`, `retrieveUser` and `toHexString`.

Conventions of the embedding

* opaque native handles (`sp_track*`, `jobject`, ...) are natural numbers, `0` is `NULL`;
* pointers to `media` nodes are `Option Nat` (`none` is `NULL`) into a heap of nodes;
* every call that leaves the file (libspotify, JNI, pthread, the signal helpers) is
  recorded, in program order, as an `Event` appended to the trace of the state;
* the answers of the native library are parameters (`Lib`, or a function of the
  number of the call where the answers may change from call to call);
* `while` loops whose termination depends on the data take a fuel argument and
  return `none` when it runs out.
-/

namespace JahSpotify

/-! ## Data model -/

/-- Modelled from the spec: the declaration of `struct media` (JahSpotify.h) is not among
the sources; the fields are the seven that `addLoading` assigns. -/
structure media where
  prev : Option Nat
  next : Option Nat
  javainstance : Nat
  track : Nat
  album : Nat
  artist : Nat
  browse : Int
deriving DecidableEq, Repr

/-- The five values an entry of the pending-load list holds (a node without its links). -/
structure Entry where
  javainstance : Nat
  track : Nat
  album : Nat
  artist : Nat
  browse : Int
deriving DecidableEq, Repr

/-- The payload of a node. -/
def media.entry (m : media) : Entry :=
  { javainstance := m.javainstance, track := m.track, album := m.album,
    artist := m.artist, browse := m.browse }

/-- The memory holding `media` nodes: an address is either free or holds a node. -/
abbrev Heap := Nat → Option media

/-- Store `v` at address `a`. -/
def Heap.write (h : Heap) (a : Nat) (v : Option media) : Heap :=
  fun x => if x = a then v else h x

/-- The field read `p->next`. -/
def Heap.nextOf (h : Heap) (p : Nat) : Option Nat := (h p).bind media.next

/-- The field read `p->prev`. -/
def Heap.prevOf (h : Heap) (p : Nat) : Option Nat := (h p).bind media.prev

/-- The assignment `p->prev = v`. -/
def Heap.setPrev (h : Heap) (p : Nat) (v : Option Nat) : Heap :=
  match h p with
  | some m => h.write p (some { m with prev := v })
  | none => h

/-- The assignment `p->next = v`. -/
def Heap.setNext (h : Heap) (p : Nat) (v : Option Nat) : Heap :=
  match h p with
  | some m => h.write p (some { m with next := v })
  | none => h

/-- The log lines that tell the exits of the bridge functions apart. -/
inductive Msg where
  | no_track_from_link
  | track_not_loaded_after_1_second
  | error_with_track
  | issue_loading_track
  | unable_to_load_link
  | error_starting_play
  | timeout_waiting_for_user
  | could_not_create_user
  | user_is_loaded
  | login_without_username_or_password
  | credentials_not_specified_and_not_remembered
  | unable_to_create_session
  | conn_state_is_null
  | disconnected
  | cleaning_up
deriving DecidableEq, Repr

/-- The fields of `jahspotify.media.User` that `retrieveUser` sets. -/
inductive UserField where
  | fullName
  | userName
  | displayName
  | country
deriving DecidableEq, Repr

/-- Calls that leave `JahSpotify.c`, as they appear in the trace. `enter_track_ended`
stands for the first statement of `track_ended` (its log line "Called") and carries the
argument of the call. -/
inductive Event where
  | log (m : Msg)
  | lock_spotify
  | unlock_spotify
  | lock_notify
  | unlock_notify
  | cond_signal
  | retrieveEnv (ok : Bool)
  | detachThread
  | populateJTrackInstance (inst track : Nat)
  | populateJArtistInstance (inst artist : Nat) (browse : Int)
  | populateJAlbumInstance (inst album : Nat) (browse : Int)
  | DeleteGlobalRef (inst : Nat)
  | free (addr : Nat)
  | usleep (usec : Nat)
  | enter_track_ended (forced : Bool)
  | sp_link_create_from_track (track : Nat)
  | sp_link_create_from_string (uri : Nat)
  | sp_link_as_track (link : Nat)
  | sp_link_release (link : Nat)
  | sp_track_add_ref (track : Nat)
  | sp_track_release (track : Nat)
  | sp_session_player_seek (sess : Nat) (offset : Int)
  | sp_session_preferred_bitrate (sess : Nat) (rate : Int)
  | sp_session_player_play (sess : Nat) (play : Bool)
  | sp_session_player_unload (sess : Nat)
  | sp_session_player_load (sess track : Nat)
  | sp_session_logout (sess : Nat)
  | sp_session_forget_me (sess : Nat)
  | sp_search_create (sess : Nat) (token : Int)
  | signalTrackEnded (link : Option Nat) (forced : Bool)
  | signalTrackStarted (uri : Nat)
  | setAudioFormat (rate channels : Int)
  | NewByteArray (size : Int)
  | SetByteArrayRegion (array : Nat) (start len : Int) (frames : Nat)
  | addToBuffer (array : Nat)
  | DeleteLocalRef (ref : Nat)
  | sp_track_is_loaded (track : Nat) (answer : Bool)
  | sp_user_is_loaded (user : Nat) (answer : Bool)
  | sp_session_user (sess : Nat)
  | sp_session_user_country (sess : Nat)
  | createInstance_User
  | setObjectStringField (obj : Nat) (field : UserField) (value : List Nat)
  | GetStringUTFChars (jstr : Nat)
  | ReleaseStringUTFChars (jstr chars : Nat)
  | sp_session_relogin (sess : Nat)
  | sp_session_login (sess username password : Nat) (remember : Bool) (blob : Nat)
  | pthread_mutex_init_spotify
  | pthread_mutex_init_notify
  | pthread_cond_init_notify
  | pthread_cond_wait
  | pthread_cond_timedwait
  | sp_session_create
  | sp_session_set_volume_normalization (sess : Nat) (enable : Bool)
  | sp_session_connectionstate (sess : Nat)
  | sp_session_process_events (sess : Nat)
  | sp_session_release (sess : Nat)
  | signalInitialized (v : Int)
  | signalDisconnected
deriving Repr

/-- A value carried by a call of the trace. -/
inductive Arg where
  | nat (n : Nat)
  | int (i : Int)
  | bool (b : Bool)
  | optNat (o : Option Nat)
  | msg (m : Msg)
  | field (f : UserField)
  | str (l : List Nat)
deriving DecidableEq, Repr

/-- The position of the call in the list of calls, with the values it carries. -/
def Event.code : Event → Nat × List Arg
  | .log m => (0, [.msg m])
  | .lock_spotify => (1, [])
  | .unlock_spotify => (2, [])
  | .lock_notify => (3, [])
  | .unlock_notify => (4, [])
  | .cond_signal => (5, [])
  | .retrieveEnv ok => (6, [.bool ok])
  | .detachThread => (7, [])
  | .populateJTrackInstance inst track => (8, [.nat inst, .nat track])
  | .populateJArtistInstance inst artist browse => (9, [.nat inst, .nat artist, .int browse])
  | .populateJAlbumInstance inst album browse => (10, [.nat inst, .nat album, .int browse])
  | .DeleteGlobalRef inst => (11, [.nat inst])
  | .free addr => (12, [.nat addr])
  | .usleep usec => (13, [.nat usec])
  | .enter_track_ended forced => (14, [.bool forced])
  | .sp_link_create_from_track track => (15, [.nat track])
  | .sp_link_create_from_string uri => (16, [.nat uri])
  | .sp_link_as_track link => (17, [.nat link])
  | .sp_link_release link => (18, [.nat link])
  | .sp_track_add_ref track => (19, [.nat track])
  | .sp_track_release track => (20, [.nat track])
  | .sp_session_player_seek sess offset => (21, [.nat sess, .int offset])
  | .sp_session_preferred_bitrate sess rate => (22, [.nat sess, .int rate])
  | .sp_session_player_play sess play => (23, [.nat sess, .bool play])
  | .sp_session_player_unload sess => (24, [.nat sess])
  | .sp_session_player_load sess track => (25, [.nat sess, .nat track])
  | .sp_session_logout sess => (26, [.nat sess])
  | .sp_session_forget_me sess => (27, [.nat sess])
  | .sp_search_create sess token => (28, [.nat sess, .int token])
  | .signalTrackEnded link forced => (29, [.optNat link, .bool forced])
  | .signalTrackStarted uri => (30, [.nat uri])
  | .setAudioFormat rate channels => (31, [.int rate, .int channels])
  | .NewByteArray size => (32, [.int size])
  | .SetByteArrayRegion array start len frames =>
    (33, [.nat array, .int start, .int len, .nat frames])
  | .addToBuffer array => (34, [.nat array])
  | .DeleteLocalRef ref => (35, [.nat ref])
  | .sp_track_is_loaded track answer => (36, [.nat track, .bool answer])
  | .sp_user_is_loaded user answer => (37, [.nat user, .bool answer])
  | .sp_session_user sess => (38, [.nat sess])
  | .sp_session_user_country sess => (39, [.nat sess])
  | .createInstance_User => (40, [])
  | .setObjectStringField obj field value => (41, [.nat obj, .field field, .str value])
  | .GetStringUTFChars jstr => (42, [.nat jstr])
  | .ReleaseStringUTFChars jstr chars => (43, [.nat jstr, .nat chars])
  | .sp_session_relogin sess => (44, [.nat sess])
  | .sp_session_login sess username password remember blob =>
    (45, [.nat sess, .nat username, .nat password, .bool remember, .nat blob])
  | .pthread_mutex_init_spotify => (46, [])
  | .pthread_mutex_init_notify => (47, [])
  | .pthread_cond_init_notify => (48, [])
  | .pthread_cond_wait => (49, [])
  | .pthread_cond_timedwait => (50, [])
  | .sp_session_create => (51, [])
  | .sp_session_set_volume_normalization sess enable => (52, [.nat sess, .bool enable])
  | .sp_session_connectionstate sess => (53, [.nat sess])
  | .sp_session_process_events sess => (54, [.nat sess])
  | .sp_session_release sess => (55, [.nat sess])
  | .signalInitialized v => (56, [.int v])
  | .signalDisconnected => (57, [])

set_option maxHeartbeats 4000000 in
/-- Equality of calls is decided on their codes. -/
instance instDecidableEqEvent : DecidableEq Event := fun a b =>
  decidable_of_iff (a.code = b.code)
    ⟨fun h => by cases a <;> cases b <;> simp_all [Event.code], fun h => by rw [h]⟩

/-- The globals of `JahSpotify.c` together with the node heap and the trace. -/
structure State where
  heap : Heap
  loading : Option Nat
  g_sess : Nat
  g_currenttrack : Nat
  g_notify_do : Int
  g_playback_done : Int
  g_playback_stopped : Int
  g_stop_after_logout : Int
  g_stop : Int
  trace : List Event

/-- Record one outgoing call. -/
def State.emit (s : State) (e : Event) : State :=
  { s with trace := s.trace ++ [e] }

/-- The answers of the native side that stay fixed during one call of a bridge function. -/
structure Lib where
  sp_track_is_loaded : Nat → Bool
  sp_artist_is_loaded : Nat → Bool
  sp_album_is_loaded : Nat → Bool
  retrieveEnv : Bool
  sp_link_create_from_track : Nat → Nat

/-! ## The pending-load list -/

/-- The function `addLoading` (JahSpotify.c 1690-1707). `lmedia` is the address `malloc`
returned. -/
def addLoading (lmedia : Nat) (javainstance track album artist : Nat) (browse : Int)
    (s : State) : State :=
  let s := s.emit .lock_spotify
  let node : media :=
    { prev := none, next := s.loading, javainstance := javainstance, track := track,
      album := album, artist := artist, browse := browse }
  let s := { s with heap := s.heap.write lmedia (some node) }
  let s :=
    match s.loading with
    | some l => { s with heap := s.heap.setPrev l (some lmedia) }
    | none => s
  let s := { s with loading := some lmedia }
  s.emit .unlock_spotify

/-- The condition of the `if` in `checkLoaded` (JahSpotify.c 1717-1719): a non-null handle
of the node is reported loaded. -/
def isLoaded (lib : Lib) (e : Entry) : Bool :=
  (e.track != 0 && lib.sp_track_is_loaded e.track)
    || (e.artist != 0 && lib.sp_artist_is_loaded e.artist)
    || (e.album != 0 && lib.sp_album_is_loaded e.album)

/-- How the loop of `checkLoaded` is left. -/
inductive LoopExit where
  | returned (s : State)
  | finished (env : Bool) (s : State)

/-- The statements that unlink `checkload` (JahSpotify.c 1720-1729). -/
def unlink (c : Nat) (s : State) : State :=
  if s.loading = some c then
    let s := { s with loading := s.heap.nextOf c }
    match s.loading with
    | some l => { s with heap := s.heap.setPrev l none }
    | none => s
  else
    let s :=
      match s.heap.prevOf c with
      | some p => { s with heap := s.heap.setNext p (s.heap.nextOf c) }
      | none => s
    match s.heap.nextOf c with
    | some n => { s with heap := s.heap.setPrev n (s.heap.prevOf c) }
    | none => s

/-- The call of the populate routine for a node (JahSpotify.c 1733-1739). -/
def populate (e : Entry) (s : State) : State :=
  if e.track ≠ 0 then s.emit (.populateJTrackInstance e.javainstance e.track)
  else if e.artist ≠ 0 then s.emit (.populateJArtistInstance e.javainstance e.artist e.browse)
  else if e.album ≠ 0 then s.emit (.populateJAlbumInstance e.javainstance e.album e.browse)
  else s

/-- The `while` loop of `checkLoaded` (JahSpotify.c 1715-1748); `env` tells whether the
JNI environment has been retrieved, `checkload` is the loop pointer. -/
def checkLoadedLoop (lib : Lib) : Nat → Bool → Option Nat → State → Option LoopExit
  | 0, _, _, _ => none
  | _ + 1, env, none, s => some (.finished env s)
  | fuel + 1, env, some c, s =>
    match s.heap c with
    | none => none
    | some m =>
      if isLoaded lib m.entry then
        let s := unlink c s
        let s := if env then s else s.emit (.retrieveEnv lib.retrieveEnv)
        if !env && !lib.retrieveEnv then some (.returned s)
        else
          let s := populate m.entry s
          let s := s.emit (.DeleteGlobalRef m.javainstance)
          let next := s.heap.nextOf c
          let s := { s with heap := s.heap.write c none }
          let s := s.emit (.free c)
          checkLoadedLoop lib fuel true next s
      else
        checkLoadedLoop lib fuel env (s.heap.nextOf c) s

/-- The function `checkLoaded` (JahSpotify.c 1709-1753). -/
def checkLoaded (lib : Lib) (fuel : Nat) (s : State) : Option State :=
  let s := s.emit .lock_spotify
  match checkLoadedLoop lib fuel false s.loading s with
  | none => none
  | some (.returned s) => some s
  | some (.finished env s) =>
    let s := if env then s.emit .detachThread else s
    some (s.emit .unlock_spotify)

/-- A forward walk over the list: starting at `p`, whose `prev` is `prev`, the nodes met
by following `next` up to `NULL` are at the addresses and hold the entries of the list. -/
def fwd (h : Heap) : Option Nat → Option Nat → List (Nat × Entry) → Prop
  | _, p, [] => p = none
  | prev, p, (a, e) :: rest =>
    p = some a ∧ ∃ m, h a = some m ∧ m.prev = prev ∧ m.entry = e ∧ fwd h (some a) m.next rest

/-- The pending-load list rooted at `loading` is `l` (addresses and entries, head first). -/
def Pending (h : Heap) (loading : Option Nat) (l : List (Nat × Entry)) : Prop :=
  fwd h none loading l

/-- The entries of the list rooted at `p`, read by following `next` at most `fuel` times. -/
def entriesFrom (h : Heap) : Nat → Option Nat → List Entry
  | 0, _ => []
  | _, none => []
  | fuel + 1, some a =>
    match h a with
    | none => []
    | some m => m.entry :: entriesFrom h fuel m.next

/-- A backward walk over the list: starting at `p`, whose `next` is `nxt`, the nodes met
by following `prev` up to `NULL` are at the addresses and hold the entries of the list. -/
def bwd (h : Heap) : Option Nat → Option Nat → List (Nat × Entry) → Prop
  | _, p, [] => p = none
  | nxt, p, (a, e) :: rest =>
    p = some a ∧ ∃ m, h a = some m ∧ m.next = nxt ∧ m.entry = e ∧ bwd h (some a) m.prev rest

/-- The head of a list given by the nodes `rk` behind a position (nearest first) and
the pointer `c` to the node at the position. -/
def headPtr : List (Nat × Entry) → Option Nat → Option Nat
  | [], c => c
  | (a, _) :: rk, _ => headPtr rk (some a)

/-- The assignment `p->prev = v` guarded by `p != NULL`. -/
def Heap.setPrevOpt (h : Heap) (p : Option Nat) (v : Option Nat) : Heap :=
  match p with
  | some n => h.setPrev n v
  | none => h

/-- The assignment `p->next = v` guarded by `p != NULL`. -/
def Heap.setNextOpt (h : Heap) (p : Option Nat) (v : Option Nat) : Heap :=
  match p with
  | some n => h.setNext n v
  | none => h

/-- The calls of the populate routines. -/
def Event.isPopulate : Event → Bool
  | .populateJTrackInstance _ _ => true
  | .populateJArtistInstance _ _ _ => true
  | .populateJAlbumInstance _ _ _ => true
  | _ => false

/-- An entry of exactly one kind: exactly one of track, artist, album is non-null. -/
def Entry.oneKind (e : Entry) : Prop :=
  (e.track ≠ 0 ∧ e.artist = 0 ∧ e.album = 0)
    ∨ (e.track = 0 ∧ e.artist ≠ 0 ∧ e.album = 0)
    ∨ (e.track = 0 ∧ e.artist = 0 ∧ e.album ≠ 0)

/-- Whether the one handle of an entry is reported loaded. -/
def Entry.handleLoaded (lib : Lib) (e : Entry) : Bool :=
  if e.track ≠ 0 then lib.sp_track_is_loaded e.track
  else if e.artist ≠ 0 then lib.sp_artist_is_loaded e.artist
  else lib.sp_album_is_loaded e.album

/-- The populate call that belongs to the kind of an entry. -/
def Entry.populateCall (e : Entry) : Event :=
  if e.track ≠ 0 then .populateJTrackInstance e.javainstance e.track
  else if e.artist ≠ 0 then .populateJArtistInstance e.javainstance e.artist e.browse
  else .populateJAlbumInstance e.javainstance e.album e.browse

/-! ## Calls on the session handle and the mutex -/

/-- The function `Java_jahspotify_impl_JahSpotifyImpl_nativeTrackSeek` (JahSpotify.c 1386-1389). -/
def Java_jahspotify_impl_JahSpotifyImpl_nativeTrackSeek (offset : Int) (s : State) : State :=
  s.emit (.sp_session_player_seek s.g_sess offset)

/-- The function `Java_jahspotify_impl_JahSpotifyImpl_setBitrate` (JahSpotify.c 1400-1402). -/
def Java_jahspotify_impl_JahSpotifyImpl_setBitrate (rate : Int) (s : State) : State :=
  s.emit (.sp_session_preferred_bitrate s.g_sess rate)

/-- The function `Java_jahspotify_impl_JahSpotifyImpl_nativeLogout` (JahSpotify.c 1669-1673). -/
def Java_jahspotify_impl_JahSpotifyImpl_nativeLogout (s : State) : State :=
  let s := s.emit .lock_notify
  let s := s.emit (.sp_session_logout s.g_sess)
  s.emit .unlock_notify

/-- The function `Java_jahspotify_impl_JahSpotifyImpl_nativeForgetMe` (JahSpotify.c 1675-1679). -/
def Java_jahspotify_impl_JahSpotifyImpl_nativeForgetMe (s : State) : State :=
  let s := s.emit .lock_notify
  let s := s.emit (.sp_session_forget_me s.g_sess)
  s.emit .unlock_notify

/-- The function `Java_jahspotify_impl_JahSpotifyImpl_nativePause` (JahSpotify.c 1344-1350). -/
def Java_jahspotify_impl_JahSpotifyImpl_nativePause (s : State) : Int × State :=
  let s := if s.g_currenttrack ≠ 0 then s.emit (.sp_session_player_play s.g_sess false) else s
  (0, s)

/-- The calls into libspotify that take the session handle. -/
def Event.takesSession : Event → Bool
  | .sp_session_player_seek _ _ => true
  | .sp_session_preferred_bitrate _ _ => true
  | .sp_session_player_play _ _ => true
  | .sp_session_player_unload _ => true
  | .sp_session_player_load _ _ => true
  | .sp_session_logout _ => true
  | .sp_session_forget_me _ => true
  | .sp_search_create _ _ => true
  | .sp_session_user _ => true
  | .sp_session_user_country _ => true
  | .sp_session_relogin _ => true
  | .sp_session_login _ _ _ _ _ => true
  | .sp_session_set_volume_normalization _ _ => true
  | .sp_session_connectionstate _ => true
  | .sp_session_process_events _ => true
  | .sp_session_release _ => true
  | _ => false

/-- Whether every call that takes the session handle, in the calls `es` one thread makes
in program order, is made while that thread holds `g_spotify_mutex`; `depth` counts how
often the thread holds the (recursive) mutex before `es`. -/
def sessionCallsLocked : Nat → List Event → Bool
  | _, [] => true
  | depth, .lock_spotify :: es => sessionCallsLocked (depth + 1) es
  | depth, .unlock_spotify :: es => sessionCallsLocked (depth - 1) es
  | depth, e :: es => (!e.takesSession || decide (0 < depth)) && sessionCallsLocked depth es

/-- The operations on `g_spotify_mutex`. -/
def Event.isLockOp : Event → Bool
  | .lock_spotify => true
  | .unlock_spotify => true
  | _ => false

/-- Since state `s` the thread has taken `g_spotify_mutex` and, up to state `s'`, made no
further operation on it. -/
def Held (s s' : State) : Prop :=
  ∃ body, s'.trace = s.trace ++ .lock_spotify :: body ∧ ∀ e ∈ body, e.isLockOp = false

/-! ## The end of a track and the session event loop -/

/-- The function `track_ended` (JahSpotify.c 1504-1530). The string `createLinkStr` makes
of the link is identified with the link. -/
def track_ended (lib : Lib) (forced : Bool) (s : State) : State :=
  let s := s.emit (.enter_track_ended forced)
  if s.g_currenttrack ≠ 0 then
    let link := lib.sp_link_create_from_track s.g_currenttrack
    let s := s.emit (.sp_link_create_from_track s.g_currenttrack)
    let trackLinkStr : Option Nat := if link ≠ 0 then some link else none
    let s := if link ≠ 0 then s.emit (.sp_link_release link) else s
    let s := if forced then s.emit (.sp_session_player_unload s.g_sess) else s
    let s := s.emit (.sp_track_release s.g_currenttrack)
    let s := { s with g_currenttrack := 0 }
    s.emit (.signalTrackEnded trackLinkStr forced)
  else s

/-- One iteration of the loop of `nativeInitialize`, from the wake-up to the end of the
dispatch on the flags (JahSpotify.c 1590-1601). -/
def mainLoopDispatch (lib : Lib) (s : State) : State :=
  let s := { s with g_notify_do := 0 }
  let playback_done : Bool := decide (s.g_playback_done ≠ 0)
  let playback_stopped : Bool := decide (s.g_playback_stopped ≠ 0)
  let s := { s with g_playback_done := 0 }
  let s := { s with g_playback_stopped := 0 }
  let s := s.emit .unlock_notify
  let s := s.emit .lock_spotify
  if playback_done then track_ended lib false s
  else if playback_stopped then track_ended lib true s
  else s

/-! ## Hexadecimal rendering -/

/-- The characters of a C string: those before the first zero byte of the buffer. -/
def cstr (buf : List Nat) : List Nat := buf.takeWhile (fun c => c != 0)

/-- The upper-case hexadecimal digit of a value below 16, as a character code. -/
def hexChar (d : Nat) : Nat := if d < 10 then 48 + d else 55 + d

/-- The upper-case hexadecimal digits of `v`, most significant first, in front of `acc`. -/
def upperHexAux : Nat → Nat → List Nat → List Nat
  | 0, _, acc => acc
  | fuel + 1, v, acc =>
    let acc := hexChar (v % 16) :: acc
    if v / 16 = 0 then acc else upperHexAux fuel (v / 16) acc

/-- What `sprintf(ls_hex, "%.2X", v)` writes before the terminating zero: the upper-case
hexadecimal digits of `v`, padded with zeros on the left to at least two digits. -/
def sprintf_02X (v : Nat) : List Nat :=
  let ds := upperHexAux (v + 1) v []
  List.replicate (2 - ds.length) 48 ++ ds

/-- Modelled from the spec: the typedef `byte` (libspotify api.h) is not among the sources;
it is taken as an unsigned 8-bit value, a number below 256. -/
def isByte (b : Nat) : Prop := b < 256

/-- The function `toHexString` (JahSpotify.c 755-773): the 41-byte buffer it returns, for
the bytes `bytes` that the argument points to. -/
def toHexString (bytes : List Nat) : List Nat :=
  let finalHash := List.replicate 41 0
  let r := (List.range 20).foldl
    (fun (st : Nat × List Nat) i =>
      let ls_hex := sprintf_02X (bytes.getD i 0) ++ [0]
      let finalHash := st.2.set st.1 (ls_hex.getD 0 0)
      let finalHash := finalHash.set (st.1 + 1) (ls_hex.getD 1 0)
      (st.1 + 2, finalHash))
    (0, finalHash)
  r.2.set 40 0

/-- The value of a hexadecimal digit character (`0` for any other character). -/
def hexVal (c : Nat) : Nat :=
  if 48 ≤ c ∧ c ≤ 57 then c - 48 else if 65 ≤ c ∧ c ≤ 70 then c - 55 else 0

/-! ## The user -/

/-- The cast `(byte) x` of an `int`. -/
def toByte (x : Int) : Nat := (x % 256).toNat

/-- The buffer `countryStr` after the two assignments (JahSpotify.c 576-578). -/
def countryStr (country : Int) : List Nat :=
  let buf : List Nat := [32, 32, 0]
  let buf := buf.set 0 (toByte (country >>> (8 : Nat)))
  buf.set 1 (toByte country)

/-- The answers of the native side to `retrieveUser`: the user handle, whether it is
loaded at the n-th call of `sp_user_is_loaded`, the new `User` object (`0` if it cannot be
created), the names and the country. -/
structure UserAnswers where
  user : Nat
  loadedAt : Nat → Bool
  userInstance : Nat
  display_name : Option (List Nat)
  canonical_name : Option (List Nat)
  country : Int

/-- The polling loop of `retrieveUser` (JahSpotify.c 543-546); the n-th call of
`sp_user_is_loaded` is the one made with `count = n`. -/
def waitUserLoaded (a : UserAnswers) : Nat → Nat → State → Option (Nat × State)
  | 0, _, _ => none
  | fuel + 1, count, s =>
    let s := s.emit (.sp_user_is_loaded a.user (a.loadedAt count))
    if !a.loadedAt count && count < 4 then
      waitUserLoaded a fuel (count + 1) (s.emit (.usleep 250))
    else some (count, s)

/-- The function `Java_jahspotify_impl_JahSpotifyImpl_retrieveUser` (JahSpotify.c 535-586);
the result is the object returned (`0` is `NULL`). -/
def Java_jahspotify_impl_JahSpotifyImpl_retrieveUser (a : UserAnswers) (fuel : Nat)
    (s : State) : Option (Nat × State) :=
  let s := s.emit (.sp_session_user s.g_sess)
  match waitUserLoaded a fuel 0 s with
  | none => none
  | some (count, s) =>
    if count = 4 then some (0, s.emit (.log .timeout_waiting_for_user))
    else
      let s := s.emit .createInstance_User
      if a.userInstance = 0 then some (0, s.emit (.log .could_not_create_user))
      else
        let s := s.emit (.sp_user_is_loaded a.user (a.loadedAt (count + 1)))
        if a.loadedAt (count + 1) then
          let s := s.emit (.log .user_is_loaded)
          let s := match a.display_name with
            | some v => s.emit (.setObjectStringField a.userInstance .fullName (cstr v))
            | none => s
          let s := match a.canonical_name with
            | some v => s.emit (.setObjectStringField a.userInstance .userName (cstr v))
            | none => s
          let s := match a.display_name with
            | some v => s.emit (.setObjectStringField a.userInstance .displayName (cstr v))
            | none => s
          let s := s.emit (.sp_session_user_country s.g_sess)
          let s := s.emit
            (.setObjectStringField a.userInstance .country (cstr (countryStr a.country)))
          some (a.userInstance, s)
        else some (0, s.emit (.DeleteLocalRef a.userInstance))

/-- The value of the `country` field that a trace sets last, if any. -/
def countrySet : List Event → Option (List Nat)
  | [] => none
  | .setObjectStringField _ .country v :: es =>
    match countrySet es with
    | some w => some w
    | none => some v
  | _ :: es => countrySet es

/-! ## Audio delivery -/

/-- The values of the C type `int`, which is 32 bits wide. -/
def fitsInt (x : Int) : Prop := -2147483648 ≤ x ∧ x < 2147483648

instance fitsInt.decidable (x : Int) : Decidable (fitsInt x) := by
  unfold fitsInt
  exact inferInstance

/-- The answers of the native side to `doPlay`: the link of the URI and its track (`0` is
`NULL`), whether the track is loaded at the n-th call of `sp_track_is_loaded`, and the
errors (`0` is `SP_ERROR_OK`) of the track before and after the load and of the load. -/
structure PlayAnswers where
  link : Nat
  track : Nat
  loadedAt : Nat → Bool
  trackErrorBefore : Nat
  trackErrorAfter : Nat
  loadResult : Nat

/-- The polling loop of `doPlay` (JahSpotify.c 1421-1424); the n-th call of
`sp_track_is_loaded` is the one made with `count = n`. -/
def waitTrackLoaded (a : PlayAnswers) : Nat → Nat → State → Option (Nat × State)
  | 0, _, _ => none
  | fuel + 1, count, s =>
    let s := s.emit (.sp_track_is_loaded a.track (a.loadedAt count))
    if !a.loadedAt count && count < 4 then
      waitTrackLoaded a fuel (count + 1) (s.emit (.usleep 250))
    else some (count, s)

/-- The function `doPlay` (JahSpotify.c 1404-1485). -/
def doPlay (lib : Lib) (a : PlayAnswers) (fuel : Nat) (nativeURI : Nat) (s : State) :
    Option (Int × State) :=
  let s := s.emit .lock_spotify
  let s := s.emit (.sp_link_create_from_string nativeURI)
  if a.link ≠ 0 then
    let s := s.emit (.sp_link_as_track a.link)
    if a.track = 0 then
      let s := s.emit (.log .no_track_from_link)
      some (-1, s.emit .unlock_spotify)
    else
      match waitTrackLoaded a fuel 0 s with
      | none => none
      | some (count, s) =>
        if count = 4 then
          let s := s.emit (.log .track_not_loaded_after_1_second)
          some (-1, s.emit .unlock_spotify)
        else if a.trackErrorBefore ≠ 0 then
          let s := s.emit (.log .error_with_track)
          some (-1, s.emit .unlock_spotify)
        else
          let s :=
            if s.g_currenttrack ≠ 0 then
              track_ended lib true (s.emit (.sp_session_player_play s.g_sess false))
            else s
          let s := s.emit (.sp_track_add_ref a.track)
          let s := s.emit (.sp_session_player_load s.g_sess a.track)
          if a.trackErrorAfter ≠ 0 then
            let s := s.emit (.log .issue_loading_track)
            let ret : Int := -1
            let s := s.emit .unlock_spotify
            some (ret, if ret > 0 then s.emit (.signalTrackStarted nativeURI) else s)
          else
            let s := { s with g_currenttrack := a.track }
            let s :=
              if a.loadResult ≠ 0 then
                track_ended lib true (s.emit (.signalTrackStarted nativeURI))
              else s.emit (.sp_session_player_play s.g_sess true)
            let s := s.emit (.sp_link_release a.link)
            let ret : Int := 1
            let s := s.emit .unlock_spotify
            some (ret, if ret > 0 then s.emit (.signalTrackStarted nativeURI) else s)
  else
    let s := s.emit (.log .unable_to_load_link)
    let s := s.emit (.log .error_starting_play)
    some (0, s)

/-- The answers of the calls of `sp_track_is_loaded` in a trace, in order. -/
def loadedAnswers : List Event → List Bool
  | [] => []
  | .sp_track_is_loaded _ b :: es => b :: loadedAnswers es
  | _ :: es => loadedAnswers es

/-! ## Login -/

/-- The answers of the native side to `nativeLogin`: the error `sp_session_relogin` answers
and the native characters JNI hands out for a string. `SP_ERROR_NO_CREDENTIALS` is the
constant of libspotify's api.h, which is not among the sources, taken as a parameter. -/
structure LoginAnswers where
  relogin : Nat
  SP_ERROR_NO_CREDENTIALS : Nat
  GetStringUTFChars : Nat → Nat

/-- The function `Java_jahspotify_impl_JahSpotifyImpl_nativeLogin` (JahSpotify.c 1636-1667).
The strings are handles (`0` is `NULL`), `savePassword` is the `jboolean` passed. -/
def Java_jahspotify_impl_JahSpotifyImpl_nativeLogin (a : LoginAnswers)
    (username password blob savePassword : Nat) (s : State) : Int × State :=
  if username = 0 ∧ (password = 0 ∨ blob = 0) then
    let s := s.emit (.log .login_without_username_or_password)
    let s := s.emit (.sp_session_relogin s.g_sess)
    if a.relogin = a.SP_ERROR_NO_CREDENTIALS then
      (1, s.emit (.log .credentials_not_specified_and_not_remembered))
    else (0, s)
  else
    let nativeUsername := a.GetStringUTFChars username
    let s := s.emit (.GetStringUTFChars username)
    let nativePassword := if password ≠ 0 then a.GetStringUTFChars password else 0
    let s := if password ≠ 0 then s.emit (.GetStringUTFChars password) else s
    let nativeBlob := if blob ≠ 0 then a.GetStringUTFChars blob else 0
    let s := if blob ≠ 0 then s.emit (.GetStringUTFChars blob) else s
    let s := s.emit (.sp_session_login s.g_sess nativeUsername nativePassword
      (decide (savePassword = 1)) nativeBlob)
    let s :=
      if nativeUsername ≠ 0 then s.emit (.ReleaseStringUTFChars username nativeUsername) else s
    let s :=
      if nativePassword ≠ 0 then s.emit (.ReleaseStringUTFChars password nativePassword) else s
    let s := if nativeBlob ≠ 0 then s.emit (.ReleaseStringUTFChars blob nativeBlob) else s
    (0, s)

/-- The calls of `sp_session_relogin`. -/
def Event.isRelogin : Event → Bool
  | .sp_session_relogin _ => true
  | _ => false

/-- The calls of `sp_session_login`. -/
def Event.isLogin : Event → Bool
  | .sp_session_login _ _ _ _ _ => true
  | _ => false

/-! ## The session event loop -/

/-- The three flags of the event loop, as written by the threads that notify it. -/
structure Flags where
  notify_do : Int
  playback_done : Int
  playback_stopped : Int

/-- What the rest of the process does during one iteration of the event loop: the flags
found when the iteration starts, with `g_notify_mutex` held, the flags found at each return
of a wait on the condition variable, the connection state, the values that
`sp_session_process_events` stores in `next_timeout`, call by call, and the value of `g_stop`
when the loop tests it (it is written by `logged_out`). -/
structure Turn where
  atLock : Flags
  wakeups : List Flags
  conn_state : Nat
  timeouts : List Int
  stop : Int

/-- The answers of the native side to `nativeInitialize`: the native characters of the cache
folder, the error of `sp_session_create` (`0` is `SP_ERROR_OK`), the session it creates and
the iterations of the loop. `SP_CONNECTION_STATE_DISCONNECTED` is the constant of
libspotify's api.h, which is not among the sources, taken as a parameter. -/
structure InitAnswers where
  nativeCacheFolder : Nat
  createError : Nat
  sp : Nat
  SP_CONNECTION_STATE_DISCONNECTED : Nat
  turns : List Turn

/-- The flags as other threads left them. -/
def State.setFlags (s : State) (f : Flags) : State :=
  { s with g_notify_do := f.notify_do, g_playback_done := f.playback_done,
           g_playback_stopped := f.playback_stopped }

/-- The wait `while (!g_notify_do && !g_playback_done) pthread_cond_wait(...)`
(JahSpotify.c 1568-1569); `none` when the thread is never notified. -/
def waitNotified : List Flags → State → Option State
  | [], s => if s.g_notify_do = 0 ∧ s.g_playback_done = 0 then none else some s
  | f :: rest, s =>
    if s.g_notify_do = 0 ∧ s.g_playback_done = 0 then
      waitNotified rest ((s.emit .pthread_cond_wait).setFlags f)
    else some s

/-- The wait `if (!g_notify_do) pthread_cond_timedwait(...)` (JahSpotify.c 1586-1587). -/
def timedWait (wakeups : List Flags) (s : State) : State :=
  if s.g_notify_do = 0 then
    match wakeups with
    | f :: _ => (s.emit .pthread_cond_timedwait).setFlags f
    | [] => s.emit .pthread_cond_timedwait
  else s

/-- The loop `do sp_session_process_events(sp, &next_timeout); while (next_timeout == 0)`
(JahSpotify.c 1619-1621); `none` when the library never stores a non-zero timeout. -/
def processEvents (sp : Nat) : List Int → State → Option (Int × State)
  | [], _ => none
  | t :: ts, s =>
    let s := s.emit (.sp_session_process_events sp)
    if t = 0 then processEvents sp ts s else some (t, s)

/-- The loop `for (;;)` of `nativeInitialize` (JahSpotify.c 1565-1626), entered with
`g_notify_mutex` held; `none` when the loop does not end within the iterations given. -/
def mainLoop (lib : Lib) (a : InitAnswers) : List Turn → Int → State → Option State
  | [], _, _ => none
  | t :: ts, next_timeout, s =>
    let s := s.setFlags t.atLock
    let waited :=
      if next_timeout = 0 then waitNotified t.wakeups (s.emit (.signalInitialized 1))
      else some (timedWait t.wakeups s)
    match waited with
    | none => none
    | some s =>
      let s := mainLoopDispatch lib s
      let s := s.emit (.sp_session_connectionstate a.sp)
      let s :=
        if t.conn_state = 0 then s.emit (.log .conn_state_is_null)
        else if t.conn_state = a.SP_CONNECTION_STATE_DISCONNECTED then
          (s.emit (.log .disconnected)).emit .signalDisconnected
        else s
      match processEvents a.sp t.timeouts s with
      | none => none
      | some (next_timeout, s) =>
        let s := s.emit .unlock_spotify
        let s := { s with g_stop := t.stop }
        if s.g_stop ≠ 0 then some s
        else mainLoop lib a ts next_timeout (s.emit .lock_notify)

/-- The function `Java_jahspotify_impl_JahSpotifyImpl_nativeInitialize`
(JahSpotify.c 1532-1634). -/
def Java_jahspotify_impl_JahSpotifyImpl_nativeInitialize (lib : Lib) (a : InitAnswers)
    (cacheFolder : Nat) (s : State) : Option (Int × State) :=
  let s := s.emit .pthread_mutex_init_spotify
  let s := s.emit .pthread_mutex_init_notify
  let s := s.emit .pthread_cond_init_notify
  let s := s.emit (.GetStringUTFChars cacheFolder)
  let s := s.emit .sp_session_create
  if a.createError ≠ 0 then some (1, s.emit (.log .unable_to_create_session))
  else
    let s := { s with g_sess := a.sp }
    let s := s.emit (.sp_session_set_volume_normalization s.g_sess true)
    let s := s.emit .lock_notify
    let s := { s with g_stop := 0 }
    match mainLoop lib a a.turns 0 s with
    | none => none
    | some s =>
      let s := s.emit (.log .cleaning_up)
      let s := s.emit (.sp_session_release s.g_sess)
      let s :=
        if a.nativeCacheFolder ≠ 0 then
          s.emit (.ReleaseStringUTFChars cacheFolder a.nativeCacheFolder)
        else s
      let s := s.emit (.signalInitialized 0)
      some (0, s)

/-- The signals to the managed side. -/
def Event.isSignal : Event → Bool
  | .signalInitialized _ => true
  | .signalDisconnected => true
  | .signalTrackEnded _ _ => true
  | .signalTrackStarted _ => true
  | _ => false

/-- Whether the iteration can be completed: the thread is notified, at the start or at one
of its wake-ups, and the library stores a non-zero timeout at some call. -/
def Turn.adequate (t : Turn) : Prop :=
  (t.atLock.notify_do ≠ 0 ∨ t.atLock.playback_done ≠ 0 ∨
      ∃ f ∈ t.wakeups, f.notify_do ≠ 0 ∨ f.playback_done ≠ 0) ∧
    ∃ x ∈ t.timeouts, x ≠ 0

/-! ## The portrait link -/

/-- The characters of the string `spotify:image:`. -/
def spotifyURI : List Nat := [115, 112, 111, 116, 105, 102, 121, 58, 105, 109, 97, 103, 101, 58]

/-- The call `strcat(dest, src)` on a buffer `dest`: the characters of `src` and a zero are
stored from the first zero of `dest` on; `none` when they do not fit in the buffer. -/
def strcat (dest src : List Nat) : Option (List Nat) :=
  let n := (cstr dest).length
  let chars := cstr src ++ [0]
  if n + chars.length ≤ dest.length then
    some (dest.take n ++ chars ++ dest.drop (n + chars.length))
  else none

/-- The buffer `dest` built for a portrait id in `populateJArtistInstanceFromArtistBrowse`
(JahSpotify.c 1005-1011); `none` when a `strcat` writes past the allocation. -/
def portraitLink (portraitURI : List Nat) : Option (List Nat) :=
  let portraitURIStr := toHexString portraitURI
  let len := (cstr (spotifyURI ++ [0])).length + (cstr portraitURIStr).length
  let dest := List.replicate (len + 1) 0
  let dest := dest.set 0 0
  match strcat dest (spotifyURI ++ [0]) with
  | none => none
  | some dest => strcat dest portraitURIStr

/-- The bytes read back from a string of hexadecimal digit pairs. -/
def fromHexString (str : List Nat) : List Nat :=
  (List.range 20).map (fun i => hexVal (str.getD (2 * i) 0) * 16 + hexVal (str.getD (2 * i + 1) 0))

/-! ## Observations on traces -/

/-- The calls made from state `s` on, in a later state `s'`. -/
def State.since (s' s : State) : List Event := s'.trace.drop s.trace.length

/-- The arguments of the calls of `track_ended` in a trace, in order. -/
def trackEndedCalls : List Event → List Bool
  | [] => []
  | .enter_track_ended f :: es => f :: trackEndedCalls es
  | _ :: es => trackEndedCalls es

/-- The calls by which a track ends: the unload of the player, the release of a track and
the track-ended signal. -/
def Event.endsTrack : Event → Bool
  | .sp_session_player_unload _ => true
  | .sp_track_release _ => true
  | .signalTrackEnded _ _ => true
  | _ => false

/-- An upper-case hexadecimal digit character: `0`-`9` or `A`-`F`. -/
def isUpperHex (c : Nat) : Prop := (48 ≤ c ∧ c ≤ 57) ∨ (65 ≤ c ∧ c ≤ 70)

/-! ## A small instance

Three pending entries, a track, an artist and an album, of which the native side reports
the track and the album loaded. -/

/-- The track entry of the instance. -/
def exTrack : Entry := { javainstance := 101, track := 7, album := 0, artist := 0, browse := 0 }

/-- The artist entry of the instance. -/
def exArtist : Entry := { javainstance := 102, track := 0, album := 0, artist := 8, browse := 1 }

/-- The album entry of the instance. -/
def exAlbum : Entry := { javainstance := 103, track := 0, album := 9, artist := 0, browse := 1 }

/-- The nodes of the instance, at the addresses 10, 20 and 30. -/
def exHeap : Heap := fun x =>
  if x = 10 then
    some { prev := none, next := some 20, javainstance := 101, track := 7, album := 0,
           artist := 0, browse := 0 }
  else if x = 20 then
    some { prev := some 10, next := some 30, javainstance := 102, track := 0, album := 0,
           artist := 8, browse := 1 }
  else if x = 30 then
    some { prev := some 20, next := none, javainstance := 103, track := 0, album := 9,
           artist := 0, browse := 1 }
  else none

/-- The state of the instance: the list starts at address 10, track 5 is playing. -/
def exState : State :=
  { heap := exHeap, loading := some 10, g_sess := 1, g_currenttrack := 5, g_notify_do := 1,
    g_playback_done := 1, g_playback_stopped := 1, g_stop_after_logout := 0, g_stop := 0,
    trace := [] }

/-- The pending list of the instance. -/
def exList : List (Nat × Entry) := [(10, exTrack), (20, exArtist), (30, exAlbum)]

/-- The native answers of the instance. -/
def exLib : Lib :=
  { sp_track_is_loaded := fun t => t == 7
    sp_artist_is_loaded := fun _ => false
    sp_album_is_loaded := fun _ => true
    retrieveEnv := true
    sp_link_create_from_track := fun t => t + 1000 }

/-- Twenty bytes of the instance: 0, 184, 26, 210, 52, 236, ... -/
def exBytes : List Nat := (List.range 20).map (fun i => (i * 13 + 171 * (i % 2)) % 256)

/-- The native answers to `retrieveUser` of the instance: a user that is loaded at once,
without names, in the country `country`. -/
def exUser (country : Int) : UserAnswers :=
  { user := 3, loadedAt := fun _ => true, userInstance := 50, display_name := none,
    canonical_name := none, country := country }

/-- The native answers to `doPlay` of the instance: a track link whose track is reported
not loaded four times and loaded at the fifth call. -/
def exPlay : PlayAnswers :=
  { link := 3, track := 4, loadedAt := fun n => n == 4, trackErrorBefore := 0,
    trackErrorAfter := 0, loadResult := 0 }

/-- The calls that set a field of the user object. -/
def Event.isSetField : Event → Bool
  | .setObjectStringField _ _ _ => true
  | _ => false

/-- The fields of a populated user object, in the order in which they are set. -/
def userFields (a : UserAnswers) : List Event :=
  (match a.display_name with
    | some v => [.setObjectStringField a.userInstance .fullName (cstr v)]
    | none => [])
  ++ (match a.canonical_name with
    | some v => [.setObjectStringField a.userInstance .userName (cstr v)]
    | none => [])
  ++ (match a.display_name with
    | some v => [.setObjectStringField a.userInstance .displayName (cstr v)]
    | none => [])
  ++ [.setObjectStringField a.userInstance .country (cstr (countryStr a.country))]

/-- The native answers to `retrieveUser` of a user reported loaded only at the fifth call
of `sp_user_is_loaded`. -/
def exUserLate : UserAnswers :=
  { user := 3, loadedAt := fun n => n == 4, userInstance := 50, display_name := some [65, 0],
    canonical_name := some [97, 0], country := 83 * 256 + 69 }

/-- The native answers to `retrieveUser` of a user reported loaded at the first call of
`sp_user_is_loaded` and not loaded at the second. -/
def exUserOnce : UserAnswers :=
  { user := 3, loadedAt := fun n => n == 0, userInstance := 50, display_name := some [65, 0],
    canonical_name := some [97, 0], country := 83 * 256 + 69 }

/-- The native answers to `retrieveUser` of a user reported not loaded at the first call of
`sp_user_is_loaded` and loaded from then on. -/
def exUserSecond : UserAnswers :=
  { user := 3, loadedAt := fun n => n != 0, userInstance := 50, display_name := some [65, 0],
    canonical_name := some [97, 0], country := 83 * 256 + 69 }

/-- The native answers to `nativeLogin` of the instance. -/
def exLogin : LoginAnswers :=
  { relogin := 19, SP_ERROR_NO_CREDENTIALS := 19, GetStringUTFChars := fun j => j + 100 }

/-- The native answers to `doPlay` of the instance for a track that is loaded and loads
without error. -/
def exPlayOk : PlayAnswers :=
  { link := 3, track := 4, loadedAt := fun _ => true, trackErrorBefore := 0,
    trackErrorAfter := 0, loadResult := 0 }

/-- The first iteration of the instance: the thread is notified already, the library stores
the timeouts 0 and 50, `g_stop` is not set. -/
def exTurn0 : Turn :=
  { atLock := ⟨1, 0, 0⟩, wakeups := [], conn_state := 1, timeouts := [0, 50], stop := 0 }

/-- The second iteration of the instance: the thread is notified at its wake-up, the library
stores the timeout 30, `g_stop` is set. -/
def exTurn1 : Turn :=
  { atLock := ⟨0, 0, 0⟩, wakeups := [⟨1, 0, 0⟩], conn_state := 1, timeouts := [30], stop := 1 }

/-- The native answers to `nativeInitialize` of the instance: the session is created and
the loop runs the two iterations. -/
def exInit : InitAnswers :=
  { nativeCacheFolder := 200, createError := 0, sp := 9, SP_CONNECTION_STATE_DISCONNECTED := 2,
    turns := [exTurn0, exTurn1] }

/-- The native answers to `nativeInitialize` of the instance when the session cannot be
created. -/
def exInitFail : InitAnswers :=
  { nativeCacheFolder := 200, createError := 5, sp := 9, SP_CONNECTION_STATE_DISCONNECTED := 2,
    turns := [exTurn0, exTurn1] }

/-- The trace of `s'` continues the trace of `s`. -/
def State.Extends (s s' : State) : Prop := ∃ l, s'.trace = s.trace ++ l

/-- From `s` to `s'` the thread left `g_sess` alone and made calls none of which is
`signalInitialized(0)`. -/
def State.Looped (s s' : State) : Prop :=
  s'.g_sess = s.g_sess ∧ ∃ l, s'.trace = s.trace ++ l ∧ ∀ e ∈ l, e ≠ .signalInitialized 0

/-! ## Theorems: the node heap -/

theorem Heap.write_same (h : Heap) (a : Nat) (v : Option media) : (h.write a v) a = v := by
  simp [Heap.write]

theorem Heap.write_other (h : Heap) {a x : Nat} (v : Option media) (hx : x ≠ a) :
    (h.write a v) x = h x := by
  simp [Heap.write, hx]

theorem Heap.setPrev_other (h : Heap) {p x : Nat} (v : Option Nat) (hx : x ≠ p) :
    (h.setPrev p v) x = h x := by
  unfold Heap.setPrev
  rcases h p with _ | m <;> simp [Heap.write, hx]

theorem Heap.setPrev_same (h : Heap) {p : Nat} {m : media} (v : Option Nat)
    (hm : h p = some m) : (h.setPrev p v) p = some { m with prev := v } := by
  unfold Heap.setPrev
  rw [hm]
  simp [Heap.write]

theorem Heap.setNext_other (h : Heap) {p x : Nat} (v : Option Nat) (hx : x ≠ p) :
    (h.setNext p v) x = h x := by
  unfold Heap.setNext
  rcases h p with _ | m <;> simp [Heap.write, hx]

theorem Heap.setNext_same (h : Heap) {p : Nat} {m : media} (v : Option Nat)
    (hm : h p = some m) : (h.setNext p v) p = some { m with next := v } := by
  unfold Heap.setNext
  rw [hm]
  simp [Heap.write]

theorem Heap.setPrevOpt_other (h : Heap) (p : Option Nat) (v : Option Nat) {x : Nat}
    (hx : p ≠ some x) : (h.setPrevOpt p v) x = h x := by
  cases p with
  | none => rfl
  | some n =>
    have : x ≠ n := fun hxn => hx (by rw [hxn])
    exact Heap.setPrev_other h v this

theorem Heap.setNextOpt_other (h : Heap) (p : Option Nat) (v : Option Nat) {x : Nat}
    (hx : p ≠ some x) : (h.setNextOpt p v) x = h x := by
  cases p with
  | none => rfl
  | some n =>
    have : x ≠ n := fun hxn => hx (by rw [hxn])
    exact Heap.setNext_other h v this

/-- A forward walk only reads the nodes of its list. -/
theorem fwd_frame {h h' : Heap} :
    ∀ (l : List (Nat × Entry)) (prev p : Option Nat),
      (∀ a ∈ l.map Prod.fst, h' a = h a) → fwd h prev p l → fwd h' prev p l
  | [], _, _, _, hf => hf
  | (a, e) :: rest, prev, p, hh, hf => by
    obtain ⟨hp, m, hm, hprev, he, hrest⟩ := hf
    refine ⟨hp, m, ?_, hprev, he, fwd_frame rest _ _ (fun x hx => hh x ?_) hrest⟩
    · rw [hh a (by simp)]; exact hm
    · simp only [List.map_cons, List.mem_cons]; exact Or.inr hx

/-- A backward walk only reads the nodes of its list. -/
theorem bwd_frame {h h' : Heap} :
    ∀ (l : List (Nat × Entry)) (nxt p : Option Nat),
      (∀ a ∈ l.map Prod.fst, h' a = h a) → bwd h nxt p l → bwd h' nxt p l
  | [], _, _, _, hf => hf
  | (a, e) :: rest, nxt, p, hh, hf => by
    obtain ⟨hp, m, hm, hnext, he, hrest⟩ := hf
    refine ⟨hp, m, ?_, hnext, he, bwd_frame rest _ _ (fun x hx => hh x ?_) hrest⟩
    · rw [hh a (by simp)]; exact hm
    · simp only [List.map_cons, List.mem_cons]; exact Or.inr hx

/-- The nodes of a walk are allocated. -/
theorem fwd_alloc {h : Heap} :
    ∀ (l : List (Nat × Entry)) (prev p : Option Nat), fwd h prev p l →
      ∀ a ∈ l.map Prod.fst, h a ≠ none
  | [], _, _, _, a, ha => by simp at ha
  | (b, e) :: rest, prev, p, hf, a, ha => by
    obtain ⟨_, m, hm, _, _, hrest⟩ := hf
    simp only [List.map_cons, List.mem_cons] at ha
    rcases ha with rfl | ha
    · rw [hm]; simp
    · exact fwd_alloc rest _ _ hrest a ha

/-- The heap and the start pointer determine the list walked. -/
theorem fwd_unique {h : Heap} :
    ∀ (l₁ l₂ : List (Nat × Entry)) (prev₁ prev₂ p : Option Nat),
      fwd h prev₁ p l₁ → fwd h prev₂ p l₂ → l₁ = l₂
  | [], [], _, _, _, _, _ => rfl
  | [], (a, e) :: rest, _, _, p, h₁, h₂ => by
    obtain ⟨hp, _⟩ := h₂
    have h₁' : p = none := h₁
    rw [h₁'] at hp
    cases hp
  | (a, e) :: rest, [], _, _, p, h₁, h₂ => by
    obtain ⟨hp, _⟩ := h₁
    have h₂' : p = none := h₂
    rw [h₂'] at hp
    cases hp
  | (a, e) :: rest, (b, e') :: rest', _, _, p, h₁, h₂ => by
    obtain ⟨hp, m, hm, _, he, hrest⟩ := h₁
    obtain ⟨hp', m', hm', _, he', hrest'⟩ := h₂
    rw [hp] at hp'
    cases hp'
    rw [hm] at hm'
    cases hm'
    rw [← he, ← he', fwd_unique rest rest' _ _ _ hrest hrest']

/-- Every suffix of a walked list is itself walked from some node. -/
theorem fwd_suffix {h : Heap} :
    ∀ (l₁ l₂ : List (Nat × Entry)) (prev p : Option Nat), fwd h prev p (l₁ ++ l₂) →
      ∃ prev' p', fwd h prev' p' l₂
  | [], _, prev, p, hf => ⟨prev, p, hf⟩
  | (a, e) :: rest, l₂, _, _, hf => by
    obtain ⟨_, m, _, _, _, hrest⟩ := hf
    exact fwd_suffix rest l₂ _ _ hrest

/-- The nodes of a walked list are pairwise distinct. -/
theorem fwd_nodup {h : Heap} :
    ∀ (l : List (Nat × Entry)) (prev p : Option Nat), fwd h prev p l →
      (l.map Prod.fst).Nodup
  | [], _, _, _ => by simp
  | (a, e) :: rest, prev, p, hf => by
    have hf' := hf
    obtain ⟨hp, m, hm, _, _, hrest⟩ := hf
    rw [List.map_cons, List.nodup_cons]
    refine ⟨?_, fwd_nodup rest _ _ hrest⟩
    intro ha
    obtain ⟨x, hx, hxa⟩ := List.mem_map.mp ha
    obtain ⟨l₁, l₂, hsplit⟩ := List.append_of_mem hx
    rw [hsplit] at hrest
    obtain ⟨prev', p', hsuf⟩ := fwd_suffix l₁ (x :: l₂) _ _ hrest
    obtain ⟨a', e'⟩ := x
    simp only at hxa
    subst hxa
    have hp' : p' = some a' := hsuf.1
    rw [hp'] at hsuf
    rw [hp] at hf'
    have heq := fwd_unique _ _ _ _ _ hsuf hf'
    have hlen := congrArg List.length heq
    rw [hsplit] at hlen
    simp at hlen
    omega

/-- Writing the `prev` of the first node of a walk changes where the walk comes from. -/
theorem fwd_setPrevOpt {h : Heap} (l : List (Nat × Entry)) (prev p q : Option Nat)
    (hf : fwd h prev p l) : fwd (h.setPrevOpt p q) q p l := by
  have hnd := fwd_nodup l prev p hf
  cases l with
  | nil =>
    have hp : p = none := hf
    subst hp
    exact rfl
  | cons x rest =>
    obtain ⟨a, e⟩ := x
    obtain ⟨hp, m, hm, _, he, hrest⟩ := hf
    subst hp
    rw [List.map_cons, List.nodup_cons] at hnd
    refine ⟨rfl, { m with prev := q }, Heap.setPrev_same h q hm, rfl, he, ?_⟩
    refine fwd_frame rest _ _ (fun x hx => ?_) hrest
    exact Heap.setPrev_other h q (fun hxa => hnd.1 (hxa ▸ hx))

/-- Writing the `next` of the first node of a backward walk changes where the walk comes
from. -/
theorem bwd_setNextOpt {h : Heap} (l : List (Nat × Entry)) (nxt p q : Option Nat)
    (hnd : (l.map Prod.fst).Nodup) (hb : bwd h nxt p l) : bwd (h.setNextOpt p q) q p l := by
  cases l with
  | nil =>
    have hp : p = none := hb
    subst hp
    exact rfl
  | cons x rest =>
    obtain ⟨a, e⟩ := x
    obtain ⟨hp, m, hm, _, he, hrest⟩ := hb
    subst hp
    rw [List.map_cons, List.nodup_cons] at hnd
    refine ⟨rfl, { m with next := q }, Heap.setNext_same h q hm, rfl, he, ?_⟩
    refine bwd_frame rest _ _ (fun x hx => ?_) hrest
    exact Heap.setNext_other h q (fun hxa => hnd.1 (hxa ▸ hx))

/-- Turning the nodes behind a position around gives the list from the head. -/
theorem fwd_of_bwd {h : Heap} :
    ∀ (rk l : List (Nat × Entry)) (c p : Option Nat), bwd h c p rk → fwd h p c l →
      fwd h none (headPtr rk c) (rk.reverse ++ l)
  | [], l, c, p, hb, hf => by
    have hp : p = none := hb
    subst hp
    simpa [headPtr] using hf
  | (a, e) :: rk, l, c, p, hb, hf => by
    obtain ⟨hp, m, hm, hnext, he, hrest⟩ := hb
    subst hp
    have hcons : fwd h m.prev (some a) ((a, e) :: l) := ⟨rfl, m, hm, rfl, he, hnext ▸ hf⟩
    have := fwd_of_bwd rk ((a, e) :: l) (some a) m.prev hrest hcons
    simpa [headPtr] using this

/-- The head pointer is the position itself or one of the nodes behind it. -/
theorem headPtr_mem :
    ∀ (rk : List (Nat × Entry)) (c : Option Nat), rk ≠ [] →
      ∃ a ∈ rk.map Prod.fst, headPtr rk c = some a
  | [], _, hne => absurd rfl hne
  | [(a, e)], _, _ => ⟨a, by simp, rfl⟩
  | (a, e) :: x :: rk, _, _ => by
    obtain ⟨b, hb, hh⟩ := headPtr_mem (x :: rk) (some a) (by simp)
    exact ⟨b, List.mem_cons_of_mem _ hb, hh⟩

/-- The head pointer does not depend on the position when nodes lie behind it. -/
theorem headPtr_irrel :
    ∀ (rk : List (Nat × Entry)) (c c' : Option Nat), rk ≠ [] → headPtr rk c = headPtr rk c'
  | [], _, _, hne => absurd rfl hne
  | _ :: _, _, _, _ => rfl

/-- The start pointer of a non-empty forward walk is its first node. -/
theorem fwd_ptr_notin {h : Heap} (l : List (Nat × Entry)) (prev p : Option Nat) (a : Nat)
    (hf : fwd h prev p l) (ha : a ∉ l.map Prod.fst) : p ≠ some a := by
  cases l with
  | nil =>
    have hp : p = none := hf
    rw [hp]; simp
  | cons x rest =>
    obtain ⟨b, e⟩ := x
    obtain ⟨hp, _⟩ := hf
    rw [hp]
    intro hba
    apply ha
    cases hba
    simp

/-- The start pointer of a non-empty backward walk is its first node. -/
theorem bwd_ptr_notin {h : Heap} (l : List (Nat × Entry)) (nxt p : Option Nat) (a : Nat)
    (hb : bwd h nxt p l) (ha : a ∉ l.map Prod.fst) : p ≠ some a := by
  cases l with
  | nil =>
    have hp : p = none := hb
    rw [hp]; simp
  | cons x rest =>
    obtain ⟨b, e⟩ := x
    obtain ⟨hp, _⟩ := hb
    rw [hp]
    intro hba
    apply ha
    cases hba
    simp

/-! ## Theorems: the pending-load list -/

/-- On a node of a well-formed list, with the nodes `rk` behind it, `unlink` redirects the
`next` of the node before and the `prev` of the node after, and moves the head if the node
is the first. -/
theorem unlink_spec (s : State) (a : Nat) (m : media) (rk : List (Nat × Entry))
    (p : Option Nat) (hm : s.heap a = some m) (hprev : m.prev = p)
    (hb : bwd s.heap (some a) p rk) (hload : s.loading = headPtr rk (some a))
    (ha : a ∉ rk.map Prod.fst) :
    unlink a s = { s with heap := (s.heap.setNextOpt p m.next).setPrevOpt m.next p,
                          loading := headPtr rk m.next } := by
  cases rk with
  | nil =>
    have hp : p = none := hb
    subst hp
    have hl : s.loading = some a := hload
    unfold unlink
    rw [if_pos hl]
    simp only [Heap.nextOf, hm, Option.some_bind, Heap.setNextOpt, headPtr]
    cases m.next <;> rfl
  | cons x rk' =>
    obtain ⟨b, eb⟩ := x
    obtain ⟨hp, mb, hmb, _, _, _⟩ := hb
    subst hp
    have hab : a ≠ b := fun hab => ha (by simp [hab])
    obtain ⟨x, hx, hhead⟩ := headPtr_mem ((b, eb) :: rk') (some a) (by simp)
    have hl : s.loading ≠ some a := by
      rw [hload, hhead]
      intro hxa
      cases hxa
      exact ha hx
    have hirr : headPtr ((b, eb) :: rk') m.next = s.loading := by
      rw [hload]; rfl
    unfold unlink
    rw [if_neg hl]
    have hnext : (s.heap.setNext b m.next).nextOf a = m.next := by
      simp [Heap.nextOf, Heap.setNext_other s.heap m.next hab, hm]
    have hprev' : (s.heap.setNext b m.next).prevOf a = some b := by
      simp [Heap.prevOf, Heap.setNext_other s.heap m.next hab, hm, hprev]
    simp only [Heap.prevOf, Heap.nextOf, hm, Option.some_bind, hprev, Heap.setNextOpt]
    simp only [Heap.prevOf, Heap.nextOf] at hnext hprev'
    rw [hnext, hprev', hirr]
    cases m.next <;> rfl

/-- The populate call leaves the list alone. -/
theorem populate_heap (e : Entry) (s : State) :
    (populate e s).heap = s.heap ∧ (populate e s).loading = s.loading := by
  unfold populate
  split_ifs <;> exact ⟨rfl, rfl⟩

/-- For a loaded entry exactly one populate routine is called: the one of its first
non-null handle. -/
theorem populate_trace (lib : Lib) (e : Entry) (s : State) (h : isLoaded lib e = true) :
    (populate e s).trace = s.trace ++ [e.populateCall] := by
  unfold populate Entry.populateCall
  split_ifs with h1 h2 h3
  · rfl
  · rfl
  · rfl
  · simp [isLoaded, h1, h2, h3] at h

/-- One turn of the loop of `checkLoaded` on a loaded node of a well-formed list: the node
is unlinked, populated and freed, and the loop goes on with the next node. -/
theorem checkLoadedLoop_remove (lib : Lib) (henv : lib.retrieveEnv = true) (fuel : Nat)
    (env : Bool) (s : State) (a : Nat) (m : media) (rk rest : List (Nat × Entry))
    (p : Option Nat) (hm : s.heap a = some m) (hprev : m.prev = p)
    (hl : isLoaded lib m.entry = true)
    (hb : bwd s.heap (some a) p rk) (hrest : fwd s.heap (some a) m.next rest)
    (hload : s.loading = headPtr rk (some a))
    (hark : a ∉ rk.map Prod.fst) (harest : a ∉ rest.map Prod.fst) :
    ∃ sF, checkLoadedLoop lib (fuel + 1) env (some a) s
          = checkLoadedLoop lib fuel true m.next sF ∧
      sF.heap = ((s.heap.setNextOpt p m.next).setPrevOpt m.next p).write a none ∧
      sF.loading = headPtr rk m.next ∧
      sF.trace.filter Event.isPopulate
        = s.trace.filter Event.isPopulate ++ [m.entry.populateCall] := by
  have hpa : p ≠ some a := bwd_ptr_notin rk _ p a hb hark
  have hna : m.next ≠ some a := fwd_ptr_notin rest _ m.next a hrest harest
  have hHa : ((s.heap.setNextOpt p m.next).setPrevOpt m.next p) a = some m := by
    rw [Heap.setPrevOpt_other _ _ _ hna, Heap.setNextOpt_other _ _ _ hpa, hm]
  have hun := unlink_spec s a m rk p hm hprev hb hload hark
  have hnext : ∀ s₂ : State, s₂.heap = (unlink a s).heap →
      ((populate m.entry s₂).emit (.DeleteGlobalRef m.javainstance)).heap.nextOf a
        = m.next := by
    intro s₂ h₂
    simp only [State.emit, (populate_heap _ _).1, h₂, hun, Heap.nextOf, hHa, Option.some_bind]
  refine ⟨({ ((populate m.entry (if env then unlink a s
        else (unlink a s).emit (.retrieveEnv lib.retrieveEnv))).emit
          (.DeleteGlobalRef m.javainstance)) with
        heap := ((populate m.entry (if env then unlink a s
          else (unlink a s).emit (.retrieveEnv lib.retrieveEnv))).emit
            (.DeleteGlobalRef m.javainstance)).heap.write a none } : State).emit (.free a),
      ?_, ?_, ?_, ?_⟩
  · rw [checkLoadedLoop]
    simp only [hm, hl, if_true, henv, Bool.not_true, Bool.and_false, Bool.false_eq_true,
      if_false]
    rw [hnext _ (by split_ifs <;> rfl)]
  · simp only [State.emit, (populate_heap _ _).1]
    split_ifs <;> rw [hun]
  · simp only [State.emit, (populate_heap _ _).2]
    split_ifs <;> rw [hun]
  · simp only [State.emit, List.filter_append, populate_trace lib _ _ hl]
    split_ifs <;> simp [Event.isPopulate, hun, Entry.populateCall] <;> split_ifs <;> rfl

/-- The loop of `checkLoaded`, started at any node of a well-formed list with the nodes `rk`
behind it already visited and kept: it finishes, the list left is `rk` followed by the
entries ahead that are not loaded, and the populate routines are called for the loaded
entries ahead, in order. -/
theorem checkLoadedLoop_spec (lib : Lib) (henv : lib.retrieveEnv = true) :
    ∀ (cur rk : List (Nat × Entry)) (fuel : Nat) (env : Bool) (c p : Option Nat) (s : State),
      cur.length < fuel → bwd s.heap c p rk → fwd s.heap p c cur →
      s.loading = headPtr rk c → ((rk ++ cur).map Prod.fst).Nodup →
      ∃ env' s', checkLoadedLoop lib fuel env c s = some (.finished env' s') ∧
        Pending s'.heap s'.loading (rk.reverse ++ cur.filter (fun x => !isLoaded lib x.2)) ∧
        s'.trace.filter Event.isPopulate = s.trace.filter Event.isPopulate ++
          (cur.filter (fun x => isLoaded lib x.2)).map (fun x => x.2.populateCall)
  | [], rk, fuel, env, c, p, s, hfuel, hb, hf, hload, _ => by
    have hc : c = none := hf
    subst hc
    obtain ⟨fuel, rfl⟩ : ∃ k, fuel = k + 1 := ⟨fuel - 1, by simp at hfuel; omega⟩
    refine ⟨env, s, rfl, ?_, by simp⟩
    have := fwd_of_bwd rk [] none p hb hf
    rw [hload]
    simpa [Pending] using this
  | (a, e) :: rest, rk, fuel, env, c, p, s, hfuel, hb, hf, hload, hnd => by
    obtain ⟨fuel, rfl⟩ : ∃ k, fuel = k + 1 := ⟨fuel - 1, by simp at hfuel; omega⟩
    have hfuel' : rest.length < fuel := by simp at hfuel; omega
    obtain ⟨hc, m, hm, hprev, he, hrest⟩ := hf
    subst hc
    have hnd₁ : (rk.map Prod.fst ++ a :: rest.map Prod.fst).Nodup := by
      simpa using hnd
    have hark : a ∉ rk.map Prod.fst := fun h =>
      (List.nodup_append.mp hnd₁).2.2 h (List.mem_cons_self _ _)
    have harest : a ∉ rest.map Prod.fst :=
      (List.nodup_cons.mp (List.nodup_append.mp hnd₁).2.1).1
    have hnd₂' : (rk.map Prod.fst ++ rest.map Prod.fst).Nodup :=
      List.Nodup.of_cons (List.nodup_middle.mp hnd₁)
    have hnd₂ : ((rk ++ rest).map Prod.fst).Nodup := by
      rw [List.map_append]
      exact hnd₂'
    have hdisj : ∀ x ∈ rk.map Prod.fst, x ∉ rest.map Prod.fst := fun x h₁ h₂ =>
      (List.nodup_append.mp hnd₂').2.2 h₁ h₂
    by_cases hl : isLoaded lib e = true
    · obtain ⟨sF, hstep, hheap, hloading, htrace⟩ :=
        checkLoadedLoop_remove lib henv fuel env s a m rk rest p hm hprev (he ▸ hl) hb hrest
          hload hark harest
      have hb₁ : bwd (s.heap.setNextOpt p m.next) m.next p rk :=
        bwd_setNextOpt rk _ p m.next (List.nodup_append.mp hnd₁).1 hb
      have hf₁ : fwd (s.heap.setNextOpt p m.next) (some a) m.next rest := by
        refine fwd_frame rest _ _ (fun x hx => Heap.setNextOpt_other _ _ _ ?_) hrest
        intro hpx
        cases rk with
        | nil =>
          have hp : p = none := hb
          rw [hp] at hpx
          cases hpx
        | cons y rk' =>
          obtain ⟨b, eb⟩ := y
          have hp : p = some b := hb.1
          rw [hp] at hpx
          cases hpx
          exact hdisj _ (by simp) hx
      have hf₂ : fwd ((s.heap.setNextOpt p m.next).setPrevOpt m.next p) p m.next rest :=
        fwd_setPrevOpt rest _ m.next p hf₁
      have hb₂ : bwd ((s.heap.setNextOpt p m.next).setPrevOpt m.next p) m.next p rk := by
        refine bwd_frame rk _ _ (fun x hx => Heap.setPrevOpt_other _ _ _ ?_) hb₁
        intro hnx
        cases rest with
        | nil =>
          have hn : m.next = none := hrest
          rw [hn] at hnx
          cases hnx
        | cons y rest' =>
          obtain ⟨n, en⟩ := y
          have hn : m.next = some n := hrest.1
          rw [hn] at hnx
          cases hnx
          exact hdisj _ hx (by simp)
      have hb₃ : bwd sF.heap m.next p rk := by
        rw [hheap]
        exact bwd_frame rk _ _
          (fun x hx => Heap.write_other _ _ (fun hxa => hark (hxa ▸ hx))) hb₂
      have hf₃ : fwd sF.heap p m.next rest := by
        rw [hheap]
        exact fwd_frame rest _ _
          (fun x hx => Heap.write_other _ _ (fun hxa => harest (hxa ▸ hx))) hf₂
      obtain ⟨env', s', hrun, hpend, htr⟩ :=
        checkLoadedLoop_spec lib henv rest rk fuel true m.next p sF hfuel' hb₃ hf₃ hloading hnd₂
      refine ⟨env', s', hstep.trans hrun, ?_, ?_⟩
      · simpa [List.filter_cons, hl] using hpend
      · rw [htr, htrace, he]
        simp [List.filter_cons, hl]
    · have hstep : checkLoadedLoop lib (fuel + 1) env (some a) s
          = checkLoadedLoop lib fuel env m.next s := by
        rw [checkLoadedLoop]
        simp only [hm, he, hl, Heap.nextOf, Option.some_bind]
        rfl
      have hb' : bwd s.heap m.next (some a) ((a, e) :: rk) :=
        ⟨rfl, m, hm, rfl, he, hprev ▸ hb⟩
      have hnd' : ((((a, e) :: rk) ++ rest).map Prod.fst).Nodup := by
        have : (a :: (rk.map Prod.fst ++ rest.map Prod.fst)).Nodup :=
          List.nodup_cons.mpr ⟨by simp only [List.mem_append, not_or]; exact ⟨hark, harest⟩, hnd₂'⟩
        simpa using this
      obtain ⟨env', s', hrun, hpend, htr⟩ :=
        checkLoadedLoop_spec lib henv rest ((a, e) :: rk) fuel env m.next (some a) s hfuel'
          hb' hrest hload hnd'
      refine ⟨env', s', hstep.trans hrun, ?_, ?_⟩
      · simpa [List.filter_cons, hl] using hpend
      · rw [htr]
        simp [List.filter_cons, hl]

/-- The function `checkLoaded` on a well-formed list, with the JNI environment at hand:
it returns, keeps the entries that are not loaded and populates the loaded ones. -/
theorem checkLoaded_spec (lib : Lib) (henv : lib.retrieveEnv = true) (s : State)
    (L : List (Nat × Entry)) (fuel : Nat) (hL : Pending s.heap s.loading L)
    (hfuel : L.length < fuel) :
    ∃ s', checkLoaded lib fuel s = some s' ∧
      Pending s'.heap s'.loading (L.filter (fun x => !isLoaded lib x.2)) ∧
      s'.trace.filter Event.isPopulate = s.trace.filter Event.isPopulate ++
        (L.filter (fun x => isLoaded lib x.2)).map (fun x => x.2.populateCall) := by
  have hnd := fwd_nodup L none s.loading hL
  obtain ⟨env', s', hrun, hpend, htr⟩ :=
    checkLoadedLoop_spec lib henv L [] fuel false s.loading none (s.emit .lock_spotify) hfuel
      rfl hL rfl (by simpa using hnd)
  refine ⟨((if env' then s'.emit .detachThread else s').emit .unlock_spotify), ?_, ?_, ?_⟩
  · unfold checkLoaded
    simp only []
    rw [show (s.emit .lock_spotify).loading = s.loading from rfl, hrun]
  · have : ((if env' then s'.emit .detachThread else s').emit .unlock_spotify).heap = s'.heap
        ∧ ((if env' then s'.emit .detachThread else s').emit .unlock_spotify).loading
          = s'.loading := by
      split_ifs <;> exact ⟨rfl, rfl⟩
    rw [this.1, this.2]
    simpa using hpend
  · have : ((if env' then s'.emit .detachThread else s').emit .unlock_spotify).trace.filter
        Event.isPopulate = s'.trace.filter Event.isPopulate := by
      split_ifs <;> simp [State.emit, Event.isPopulate]
    rw [this, htr]
    simp [State.emit, Event.isPopulate]

/-- For an entry of one kind the condition of `checkLoaded` asks whether its handle is
loaded. -/
theorem isLoaded_oneKind (lib : Lib) (e : Entry) (h : e.oneKind) :
    isLoaded lib e = e.handleLoaded lib := by
  unfold isLoaded Entry.handleLoaded
  rcases h with ⟨h1, h2, h3⟩ | ⟨h1, h2, h3⟩ | ⟨h1, h2, h3⟩ <;> simp [h1, h2, h3]

/-- The instance is a well-formed pending list. -/
theorem exList_pending : Pending exState.heap exState.loading exList := by
  simp [Pending, exList, exState, fwd, exHeap, media.entry, exTrack, exArtist, exAlbum]

/-- Walking a well-formed list for at least its length reads its entries. -/
theorem entriesFrom_fwd {h : Heap} :
    ∀ (l : List (Nat × Entry)) (prev p : Option Nat) (fuel : Nat), fwd h prev p l →
      l.length ≤ fuel → entriesFrom h fuel p = l.map Prod.snd
  | [], _, p, fuel, hf, _ => by
    have hp : p = none := hf
    subst hp
    cases fuel <;> rfl
  | (a, e) :: rest, _, p, fuel, hf, hfuel => by
    obtain ⟨hp, m, hm, _, he, hrest⟩ := hf
    subst hp
    obtain ⟨fuel, rfl⟩ : ∃ k, fuel = k + 1 := ⟨fuel - 1, by simp at hfuel; omega⟩
    have hfuel' : rest.length ≤ fuel := by simp at hfuel; omega
    simp [entriesFrom, hm, he, entriesFrom_fwd rest _ _ fuel hrest hfuel']

/-- C1: on a well-formed pending list `L`, for fixed answers of the is-loaded predicates
and a retrievable JNI environment, `checkLoaded` returns (given fuel beyond the length of
the list) and the pending list is then exactly the sublist of the entries of `L`, with
their nodes, for which no non-null handle is reported loaded, in the original order. -/
theorem checkLoaded_drains_loaded (lib : Lib) (henv : lib.retrieveEnv = true) (s : State)
    (L : List (Nat × Entry)) (fuel : Nat) (hL : Pending s.heap s.loading L)
    (hfuel : L.length < fuel) :
    ∃ s', checkLoaded lib fuel s = some s' ∧
      Pending s'.heap s'.loading (L.filter (fun x => !isLoaded lib x.2)) ∧
      entriesFrom s'.heap fuel s'.loading
        = (L.map Prod.snd).filter (fun e => !isLoaded lib e) := by
  obtain ⟨s', hrun, hpend, _⟩ := checkLoaded_spec lib henv s L fuel hL hfuel
  refine ⟨s', hrun, hpend, ?_⟩
  rw [entriesFrom_fwd _ _ _ fuel hpend
    (le_trans (List.length_filter_le _ _) (Nat.le_of_lt hfuel))]
  simp [List.filter_map, Function.comp_def]

/-- C1 at the instance: of track, artist and album the artist, not loaded, stays. -/
theorem checkLoaded_drains_loaded_witness :
    ∃ s', checkLoaded exLib 4 exState = some s' ∧
      Pending s'.heap s'.loading [(20, exArtist)] ∧
      entriesFrom s'.heap 4 s'.loading = [exArtist] :=
  checkLoaded_drains_loaded exLib rfl exState exList 4 exList_pending (by decide)

/-- C2: on a well-formed pending list whose entries each have exactly one of track, artist,
album non-null, `checkLoaded` (JNI environment retrievable) calls the populate routines
exactly for the entries whose handle is reported loaded, once each and in list order, and
the call for an entry is the routine of its kind with its managed object, its handle and
(artist, album) its browse value. -/
theorem checkLoaded_populates_loaded (lib : Lib) (henv : lib.retrieveEnv = true) (s : State)
    (L : List (Nat × Entry)) (fuel : Nat) (hL : Pending s.heap s.loading L)
    (hfuel : L.length < fuel) (hkind : ∀ x ∈ L, x.2.oneKind) :
    (∃ s', checkLoaded lib fuel s = some s' ∧
      s'.trace.filter Event.isPopulate = s.trace.filter Event.isPopulate ++
        (L.filter (fun x => x.2.handleLoaded lib)).map (fun x => x.2.populateCall)) ∧
    ∀ x ∈ L,
      (x.2.track ≠ 0 →
        x.2.populateCall = .populateJTrackInstance x.2.javainstance x.2.track) ∧
      (x.2.artist ≠ 0 →
        x.2.populateCall = .populateJArtistInstance x.2.javainstance x.2.artist x.2.browse) ∧
      (x.2.album ≠ 0 →
        x.2.populateCall = .populateJAlbumInstance x.2.javainstance x.2.album x.2.browse) := by
  constructor
  · obtain ⟨s', hrun, _, htr⟩ := checkLoaded_spec lib henv s L fuel hL hfuel
    refine ⟨s', hrun, ?_⟩
    rw [htr]
    congr 2
    exact List.filter_congr (fun x hx => by rw [isLoaded_oneKind lib x.2 (hkind x hx)])
  · intro x hx
    unfold Entry.populateCall
    rcases hkind x hx with ⟨h1, h2, h3⟩ | ⟨h1, h2, h3⟩ | ⟨h1, h2, h3⟩ <;> simp [h1, h2, h3]

/-- The entries of the instance are of one kind each. -/
theorem exList_oneKind : ∀ x ∈ exList, x.2.oneKind := by
  simp [exList, Entry.oneKind, exTrack, exArtist, exAlbum]

/-- C2 at the instance: the track and the album are populated, in this order. -/
theorem checkLoaded_populates_loaded_witness :
    ∃ s', checkLoaded exLib 4 exState = some s' ∧
      s'.trace.filter Event.isPopulate
        = [.populateJTrackInstance 101 7, .populateJAlbumInstance 103 9 1] :=
  (checkLoaded_populates_loaded exLib rfl exState exList 4 exList_pending (by decide)
    exList_oneKind).1

/-- C3: on a well-formed pending list `L` and a freshly allocated node, `addLoading` makes
the pending list the new entry, holding the five arguments, followed by `L` unchanged; it is
one entry longer. -/
theorem addLoading_prepends (s : State) (L : List (Nat × Entry)) (lmedia : Nat)
    (javainstance track album artist : Nat) (browse : Int)
    (hL : Pending s.heap s.loading L) (hfresh : s.heap lmedia = none) :
    Pending (addLoading lmedia javainstance track album artist browse s).heap
        (addLoading lmedia javainstance track album artist browse s).loading
        ((lmedia, ⟨javainstance, track, album, artist, browse⟩) :: L) ∧
      entriesFrom (addLoading lmedia javainstance track album artist browse s).heap
        (L.length + 1) (addLoading lmedia javainstance track album artist browse s).loading
        = ⟨javainstance, track, album, artist, browse⟩ :: L.map Prod.snd ∧
      (⟨javainstance, track, album, artist, browse⟩ :: L.map Prod.snd).length
        = L.length + 1 := by
  have hnot : lmedia ∉ L.map Prod.fst := fun h => fwd_alloc L _ _ hL lmedia h hfresh
  have hheap : (addLoading lmedia javainstance track album artist browse s).heap
      = (s.heap.write lmedia (some ⟨none, s.loading, javainstance, track, album, artist,
          browse⟩)).setPrevOpt s.loading (some lmedia) := by
    unfold addLoading
    simp only [State.emit]
    cases s.loading <;> rfl
  have hload : (addLoading lmedia javainstance track album artist browse s).loading
      = some lmedia := by
    unfold addLoading
    simp only [State.emit]
  have hpend : Pending (addLoading lmedia javainstance track album artist browse s).heap
      (addLoading lmedia javainstance track album artist browse s).loading
      ((lmedia, ⟨javainstance, track, album, artist, browse⟩) :: L) := by
    rw [hheap, hload]
    refine ⟨rfl, ⟨none, s.loading, javainstance, track, album, artist, browse⟩, ?_, rfl, rfl,
      ?_⟩
    · rw [Heap.setPrevOpt_other _ _ _ (fwd_ptr_notin L _ _ lmedia hL hnot),
        Heap.write_same]
    · refine fwd_setPrevOpt L none s.loading (some lmedia) ?_
      exact fwd_frame L _ _
        (fun x hx => Heap.write_other _ _ (fun hxa => hnot (hxa ▸ hx))) hL
  refine ⟨hpend, ?_, by simp⟩
  have := entriesFrom_fwd _ _ _ (L.length + 1) hpend (by simp)
  simpa using this

/-- C3 at the instance: a fourth entry is put in front of the three. -/
theorem addLoading_prepends_witness :
    Pending (addLoading 40 104 11 0 0 0 exState).heap (addLoading 40 104 11 0 0 0 exState).loading
        ((40, ⟨104, 11, 0, 0, 0⟩) :: exList) ∧
      entriesFrom (addLoading 40 104 11 0 0 0 exState).heap 4
          (addLoading 40 104 11 0 0 0 exState).loading
        = [⟨104, 11, 0, 0, 0⟩, exTrack, exArtist, exAlbum] ∧
      ([⟨104, 11, 0, 0, 0⟩, exTrack, exArtist, exAlbum] : List Entry).length = 4 :=
  addLoading_prepends exState exList 40 104 11 0 0 0 exList_pending rfl

/-! ## Theorems: traces -/

theorem State.emit_trace (s : State) (e : Event) : (s.emit e).trace = s.trace ++ [e] := rfl

theorem State.since_append (s' s : State) (l : List Event) (h : s'.trace = s.trace ++ l) :
    s'.since s = l := by
  simp [State.since, h]

theorem trackEndedCalls_append (l₁ l₂ : List Event) :
    trackEndedCalls (l₁ ++ l₂) = trackEndedCalls l₁ ++ trackEndedCalls l₂ := by
  induction l₁ with
  | nil => rfl
  | cons e l ih => cases e <;> simp [trackEndedCalls, ih]

/-! ## Theorems: the session handle and the mutex -/

/-- C4: the calls on the session handle made by `nativeTrackSeek`, `setBitrate`,
`nativeLogout` and `nativeForgetMe` are not made under `g_spotify_mutex`: entered by a
thread that does not hold the mutex, each makes its call on `g_sess` without holding it
(`nativeLogout` and `nativeForgetMe` hold `g_notify_mutex` instead). -/
theorem session_calls_without_spotify_mutex (offset rate : Int) (s : State) :
    sessionCallsLocked 0
        ((Java_jahspotify_impl_JahSpotifyImpl_nativeTrackSeek offset s).since s) = false ∧
      sessionCallsLocked 0
        ((Java_jahspotify_impl_JahSpotifyImpl_setBitrate rate s).since s) = false ∧
      sessionCallsLocked 0
        ((Java_jahspotify_impl_JahSpotifyImpl_nativeLogout s).since s) = false ∧
      sessionCallsLocked 0
        ((Java_jahspotify_impl_JahSpotifyImpl_nativeForgetMe s).since s) = false := by
  refine ⟨?_, ?_, ?_, ?_⟩
  · rw [State.since_append _ s [.sp_session_player_seek s.g_sess offset] rfl]
    rfl
  · rw [State.since_append _ s [.sp_session_preferred_bitrate s.g_sess rate] rfl]
    rfl
  · rw [State.since_append _ s
      [.lock_notify, .sp_session_logout s.g_sess, .unlock_notify]
      (by simp [Java_jahspotify_impl_JahSpotifyImpl_nativeLogout, State.emit])]
    rfl
  · rw [State.since_append _ s
      [.lock_notify, .sp_session_forget_me s.g_sess, .unlock_notify]
      (by simp [Java_jahspotify_impl_JahSpotifyImpl_nativeForgetMe, State.emit])]
    rfl

/-- Calls made while the mutex is held, none of which is an operation on the mutex, are
all made under the mutex. -/
theorem sessionCallsLocked_held (d : Nat) (body rest : List Event)
    (hb : ∀ e ∈ body, e.isLockOp = false) :
    sessionCallsLocked (d + 1) (body ++ rest) = sessionCallsLocked (d + 1) rest := by
  induction body with
  | nil => rfl
  | cons e body ih =>
    have he := hb e (List.mem_cons_self _ _)
    have ih' := ih (fun x hx => hb x (List.mem_cons_of_mem _ hx))
    rw [List.cons_append]
    cases e <;> first
      | (simp [Event.isLockOp] at he; done)
      | simp [sessionCallsLocked, ih']

/-! ## Theorems: the end of a track and the event loop -/

/-- The calls `track_ended` makes, in order. -/
theorem track_ended_trace (lib : Lib) (forced : Bool) (s : State) :
    (track_ended lib forced s).trace = s.trace ++ .enter_track_ended forced ::
      (if s.g_currenttrack ≠ 0 then
        .sp_link_create_from_track s.g_currenttrack ::
          ((if lib.sp_link_create_from_track s.g_currenttrack ≠ 0 then
              [.sp_link_release (lib.sp_link_create_from_track s.g_currenttrack)] else [])
            ++ (if forced then [.sp_session_player_unload s.g_sess] else [])
            ++ [.sp_track_release s.g_currenttrack,
                .signalTrackEnded
                  (if lib.sp_link_create_from_track s.g_currenttrack ≠ 0 then
                    some (lib.sp_link_create_from_track s.g_currenttrack) else none)
                  forced])
      else []) := by
  unfold track_ended
  simp only [State.emit]
  split_ifs <;> simp

/-- The globals `track_ended` leaves alone. -/
theorem track_ended_flags (lib : Lib) (forced : Bool) (s : State) :
    (track_ended lib forced s).g_notify_do = s.g_notify_do ∧
      (track_ended lib forced s).g_playback_done = s.g_playback_done ∧
      (track_ended lib forced s).g_playback_stopped = s.g_playback_stopped ∧
      (track_ended lib forced s).g_sess = s.g_sess := by
  unfold track_ended
  simp only [State.emit]
  split_ifs <;> exact ⟨rfl, rfl, rfl, rfl⟩

/-- C6: after `track_ended` there is no current track. If there was one, the calls that
end a track are, in order: the unload of the player if and only if `forced`, one release,
of that track, and one track-ended signal, with the given `forced`; if there was none, none
of these calls is made. -/
theorem track_ended_leaves_no_track (lib : Lib) (forced : Bool) (s : State) :
    (track_ended lib forced s).g_currenttrack = 0 ∧
      ((track_ended lib forced s).since s).filter Event.endsTrack =
        (if s.g_currenttrack ≠ 0 then
          (if forced then [.sp_session_player_unload s.g_sess] else [])
            ++ [.sp_track_release s.g_currenttrack,
                .signalTrackEnded
                  (if lib.sp_link_create_from_track s.g_currenttrack ≠ 0 then
                    some (lib.sp_link_create_from_track s.g_currenttrack) else none)
                  forced]
        else []) := by
  constructor
  · unfold track_ended
    simp only [State.emit]
    split_ifs with h <;> first | rfl | (simpa using h)
  · rw [State.since_append _ s _ (track_ended_trace lib forced s)]
    split_ifs <;> simp [Event.endsTrack]

/-- C5: one iteration of the session event loop, from the wake-up on: the three flags are
`0` afterwards, and `track_ended` is called once with `forced = false` if `g_playback_done`
was set, otherwise once with `forced = true` if `g_playback_stopped` was set, otherwise not
at all. -/
theorem mainLoopDispatch_resets_and_ends (lib : Lib) (s : State) :
    (mainLoopDispatch lib s).g_notify_do = 0 ∧
      (mainLoopDispatch lib s).g_playback_done = 0 ∧
      (mainLoopDispatch lib s).g_playback_stopped = 0 ∧
      trackEndedCalls ((mainLoopDispatch lib s).since s) =
        (if s.g_playback_done ≠ 0 then [false]
         else if s.g_playback_stopped ≠ 0 then [true] else []) := by
  have hcalls : ∀ (f : Bool) (s₀ : State) (l : List Event), s₀.trace = s.trace ++ l →
      trackEndedCalls l = [] →
      trackEndedCalls ((track_ended lib f s₀).since s) = [f] := by
    intro f s₀ l h₀ hl
    rw [State.since_append _ s _ (by rw [track_ended_trace, h₀, List.append_assoc])]
    rw [trackEndedCalls_append, hl]
    split_ifs <;> simp [trackEndedCalls]
  have hw : ∀ f : Bool,
      (track_ended lib f
          { s with g_notify_do := 0, g_playback_done := 0, g_playback_stopped := 0,
                   trace := s.trace ++ [.unlock_notify] ++ [.lock_spotify] }).g_notify_do = 0 ∧
        (track_ended lib f
          { s with g_notify_do := 0, g_playback_done := 0, g_playback_stopped := 0,
                   trace := s.trace ++ [.unlock_notify] ++ [.lock_spotify] }).g_playback_done
          = 0 ∧
        (track_ended lib f
          { s with g_notify_do := 0, g_playback_done := 0, g_playback_stopped := 0,
                   trace := s.trace ++ [.unlock_notify] ++ [.lock_spotify] }).g_playback_stopped
          = 0 ∧
        trackEndedCalls ((track_ended lib f
          { s with g_notify_do := 0, g_playback_done := 0, g_playback_stopped := 0,
                   trace := s.trace ++ [.unlock_notify] ++ [.lock_spotify] }).since s) = [f] := by
    intro f
    obtain ⟨hn, hd, hs, _⟩ := track_ended_flags lib f
      { s with g_notify_do := 0, g_playback_done := 0, g_playback_stopped := 0,
               trace := s.trace ++ [.unlock_notify] ++ [.lock_spotify] }
    exact ⟨hn, hd, hs, hcalls f _ [.unlock_notify, .lock_spotify] (by simp) rfl⟩
  by_cases h1 : s.g_playback_done ≠ 0
  · have e : mainLoopDispatch lib s = track_ended lib false
        { s with g_notify_do := 0, g_playback_done := 0, g_playback_stopped := 0,
                 trace := s.trace ++ [.unlock_notify] ++ [.lock_spotify] } := by
      unfold mainLoopDispatch
      simp only [State.emit]
      rw [if_pos (by simpa using h1)]
    rw [e, if_pos h1]
    exact hw false
  · by_cases h2 : s.g_playback_stopped ≠ 0
    · have e : mainLoopDispatch lib s = track_ended lib true
          { s with g_notify_do := 0, g_playback_done := 0, g_playback_stopped := 0,
                   trace := s.trace ++ [.unlock_notify] ++ [.lock_spotify] } := by
        unfold mainLoopDispatch
        simp only [State.emit]
        rw [if_neg (by simpa using h1), if_pos (by simpa using h2)]
      rw [e, if_neg h1, if_pos h2]
      exact hw true
    · have e : mainLoopDispatch lib s =
          { s with g_notify_do := 0, g_playback_done := 0, g_playback_stopped := 0,
                   trace := s.trace ++ [.unlock_notify] ++ [.lock_spotify] } := by
        unfold mainLoopDispatch
        simp only [State.emit]
        rw [if_neg (by simpa using h1), if_neg (by simpa using h2)]
      rw [e, if_neg h1, if_neg h2]
      refine ⟨rfl, rfl, rfl, ?_⟩
      rw [State.since_append _ s [.unlock_notify, .lock_spotify] (by simp)]
      rfl

/-! ## Theorems: hexadecimal rendering -/

/-- A byte is printed by `%.2X` as the digits of its two nibbles. -/
theorem sprintf_02X_byte (b : Nat) (hb : b < 256) :
    sprintf_02X b = [hexChar (b / 16), hexChar (b % 16)] := by
  unfold sprintf_02X
  by_cases h : b / 16 = 0
  · simp [upperHexAux, h, hexChar]
  · obtain ⟨k, rfl⟩ : ∃ k, b = k + 1 := ⟨b - 1, by omega⟩
    have h2 : (k + 1) / 16 / 16 = 0 := by omega
    have h3 : (k + 1) / 16 % 16 = (k + 1) / 16 := by omega
    simp [upperHexAux, h, h2, h3]

/-- Hexadecimal digit characters are not the terminating zero. -/
theorem hexChar_ne_zero (d : Nat) : hexChar d ≠ 0 := by
  unfold hexChar
  split_ifs <;> omega

/-- The digit character of a nibble is an upper-case hexadecimal digit. -/
theorem hexChar_isUpperHex (d : Nat) (hd : d < 16) : isUpperHex (hexChar d) := by
  unfold hexChar isUpperHex
  split_ifs <;> omega

/-- The value of the digit character of a nibble is the nibble. -/
theorem hexVal_hexChar (d : Nat) (hd : d < 16) : hexVal (hexChar d) = d := by
  unfold hexChar hexVal
  split_ifs <;> omega

/-- The string in a buffer that holds non-zero characters and then a zero. -/
theorem cstr_append_zero (l r : List Nat) (hl : ∀ c ∈ l, c ≠ 0) : cstr (l ++ 0 :: r) = l := by
  unfold cstr
  rw [List.takeWhile_append_of_pos (by simpa using hl)]
  simp

/-- The pairs written for the first `n` indices take `2 * n` places. -/
theorem pairs_length (f g : Nat → Nat) (n : Nat) :
    (((List.range n).map (fun i => [f i, g i])).flatten).length = 2 * n := by
  induction n with
  | zero => rfl
  | succ n ih =>
    rw [List.range_succ, List.map_append, List.flatten_append, List.length_append, ih]
    simp
    omega

/-- The loop of `toHexString` after `n` of its twenty turns: `j` is `2 * n`, the buffer holds
the pairs written so far and is zero behind them. -/
theorem hexLoop_spec (f g : Nat → Nat) (n : Nat) (hn : n ≤ 20) :
    (List.range n).foldl
        (fun (st : Nat × List Nat) i => (st.1 + 2, (st.2.set st.1 (f i)).set (st.1 + 1) (g i)))
        (0, List.replicate 41 0)
      = (2 * n, ((List.range n).map (fun i => [f i, g i])).flatten
          ++ List.replicate (41 - 2 * n) 0) := by
  induction n with
  | zero => rfl
  | succ n ih =>
    rw [List.range_succ, List.foldl_append, ih (by omega)]
    have hk : 41 - 2 * n = (41 - 2 * (n + 1)) + 2 := by omega
    have hlen := pairs_length f g n
    simp only [List.foldl_cons, List.foldl_nil, List.map_append, List.map_cons, List.map_nil,
      List.flatten_append, List.flatten_cons, List.flatten_nil, List.append_nil]
    rw [hk, List.replicate_succ, List.replicate_succ]
    rw [List.set_append_right _ _ (by omega), hlen, Nat.sub_self, List.set_cons_zero]
    rw [List.set_append_right _ _ (by omega), hlen, Nat.add_sub_cancel_left]
    simp only [List.set_cons_succ, List.set_cons_zero, List.append_assoc, List.cons_append,
      List.nil_append]
    congr 1

/-- The buffer `toHexString` returns: for each of the twenty bytes the first two characters
that `sprintf` wrote, and the terminating zero. -/
theorem toHexString_buffer (bytes : List Nat) :
    toHexString bytes =
      ((List.range 20).map (fun i =>
        [(sprintf_02X (bytes.getD i 0) ++ [0]).getD 0 0,
         (sprintf_02X (bytes.getD i 0) ++ [0]).getD 1 0])).flatten ++ [0] := by
  have h : toHexString bytes =
      ((List.range 20).foldl
        (fun (st : Nat × List Nat) i =>
          (st.1 + 2,
            (st.2.set st.1 ((fun i => (sprintf_02X (bytes.getD i 0) ++ [0]).getD 0 0) i)).set
              (st.1 + 1) ((fun i => (sprintf_02X (bytes.getD i 0) ++ [0]).getD 1 0) i)))
        (0, List.replicate 41 0)).2.set 40 0 := rfl
  rw [h, hexLoop_spec _ _ 20 (Nat.le_refl 20)]
  simp only []
  rw [List.set_append_right _ _ (by rw [pairs_length])]
  rw [pairs_length]
  rfl

/-- The string `toHexString` returns for bytes: two digit characters for each byte. -/
theorem toHexString_cstr (bytes : List Nat) (hb : ∀ b ∈ bytes, isByte b) :
    cstr (toHexString bytes) =
      ((List.range 20).map (fun i =>
        [hexChar (bytes.getD i 0 / 16), hexChar (bytes.getD i 0 % 16)])).flatten := by
  have hlt : ∀ i, bytes.getD i 0 < 256 := by
    intro i
    rw [List.getD_eq_getElem?_getD]
    cases hi : bytes[i]? with
    | none => simp
    | some v => exact hb v (List.getElem?_mem hi)
  have hmap : (List.range 20).map (fun i =>
        [(sprintf_02X (bytes.getD i 0) ++ [0]).getD 0 0,
         (sprintf_02X (bytes.getD i 0) ++ [0]).getD 1 0])
      = (List.range 20).map (fun i =>
        [hexChar (bytes.getD i 0 / 16), hexChar (bytes.getD i 0 % 16)]) := by
    refine List.map_congr_left (fun i _ => ?_)
    rw [sprintf_02X_byte _ (hlt i)]
    rfl
  rw [toHexString_buffer, hmap]
  refine cstr_append_zero _ _ (fun c hc => ?_)
  simp only [List.mem_flatten, List.mem_map] at hc
  obtain ⟨l, ⟨i, _, rfl⟩, hcl⟩ := hc
  simp only [List.mem_cons, List.mem_singleton, List.not_mem_nil, or_false] at hcl
  rcases hcl with rfl | rfl <;> exact hexChar_ne_zero _

/-- C7: for twenty bytes `toHexString` returns a string of exactly 40 characters, each one
of `0`-`9`, `A`-`F`, and for every `i` below 20 the characters at `2i` and `2i+1` are the
upper-case hexadecimal digits of the high and of the low nibble of byte `i`. -/
theorem toHexString_upper_hex (bytes : List Nat) (_hlen : bytes.length = 20)
    (hb : ∀ b ∈ bytes, isByte b) :
    (cstr (toHexString bytes)).length = 40 ∧
      (∀ c ∈ cstr (toHexString bytes), isUpperHex c) ∧
      ∀ i, i < 20 →
        (cstr (toHexString bytes)).getD (2 * i) 0 = hexChar (bytes.getD i 0 / 16) ∧
        (cstr (toHexString bytes)).getD (2 * i + 1) 0 = hexChar (bytes.getD i 0 % 16) ∧
        hexVal ((cstr (toHexString bytes)).getD (2 * i) 0) * 16
          + hexVal ((cstr (toHexString bytes)).getD (2 * i + 1) 0) = bytes.getD i 0 := by
  have hlt : ∀ i, bytes.getD i 0 < 256 := by
    intro i
    rw [List.getD_eq_getElem?_getD]
    cases hi : bytes[i]? with
    | none => simp
    | some v => exact hb v (List.getElem?_mem hi)
  rw [toHexString_cstr bytes hb]
  refine ⟨rfl, ?_, ?_⟩
  · intro c hc
    simp only [List.mem_flatten, List.mem_map] at hc
    obtain ⟨l, ⟨i, _, rfl⟩, hcl⟩ := hc
    simp only [List.mem_cons, List.mem_singleton, List.not_mem_nil, or_false] at hcl
    have := hlt i
    rcases hcl with rfl | rfl <;> exact hexChar_isUpperHex _ (by omega)
  · intro i hi
    have h := hlt i
    have h1 := hexVal_hexChar (bytes.getD i 0 / 16) (by omega)
    have h2 := hexVal_hexChar (bytes.getD i 0 % 16) (by omega)
    have hpos : (((List.range 20).map (fun i =>
          [hexChar (bytes.getD i 0 / 16), hexChar (bytes.getD i 0 % 16)])).flatten).getD (2 * i) 0
          = hexChar (bytes.getD i 0 / 16) ∧
        (((List.range 20).map (fun i =>
          [hexChar (bytes.getD i 0 / 16), hexChar (bytes.getD i 0 % 16)])).flatten).getD
            (2 * i + 1) 0 = hexChar (bytes.getD i 0 % 16) := by
      interval_cases i <;> exact ⟨rfl, rfl⟩
    refine ⟨hpos.1, hpos.2, ?_⟩
    rw [hpos.1, hpos.2, h1, h2]
    omega

/-- C7 at the instance: the first byte, 0, is rendered `00` and the second, 184, `B8`. -/
theorem toHexString_upper_hex_witness :
    (cstr (toHexString exBytes)).length = 40 ∧
      (∀ c ∈ cstr (toHexString exBytes), isUpperHex c) ∧
      ∀ i, i < 20 →
        (cstr (toHexString exBytes)).getD (2 * i) 0 = hexChar (exBytes.getD i 0 / 16) ∧
        (cstr (toHexString exBytes)).getD (2 * i + 1) 0 = hexChar (exBytes.getD i 0 % 16) ∧
        hexVal ((cstr (toHexString exBytes)).getD (2 * i) 0) * 16
          + hexVal ((cstr (toHexString exBytes)).getD (2 * i + 1) 0) = exBytes.getD i 0 :=
  toHexString_upper_hex exBytes (by decide) (by unfold isByte; decide)

/-! ## Theorems: the user -/

/-- A trace that ends with setting the country has that value as the country set. -/
theorem countrySet_append_set (l : List Event) (obj : Nat) (v : List Nat) :
    countrySet (l ++ [.setObjectStringField obj .country v]) = some v := by
  induction l with
  | nil => rfl
  | cons e l ih =>
    rw [List.cons_append]
    cases e with
    | setObjectStringField o f w =>
      cases f <;> simp [countrySet, ih]
    | _ => simpa [countrySet] using ih

/-- Whenever `retrieveUser` returns an object, the last call it made sets the country to the
string in `countryStr`. -/
theorem retrieveUser_sets_country (a : UserAnswers) (fuel : Nat) (s : State) (r : Nat × State)
    (hrun : Java_jahspotify_impl_JahSpotifyImpl_retrieveUser a fuel s = some r)
    (hobj : r.1 ≠ 0) :
    countrySet r.2.trace = some (cstr (countryStr a.country)) := by
  unfold Java_jahspotify_impl_JahSpotifyImpl_retrieveUser at hrun
  simp only [] at hrun
  cases hw : waitUserLoaded a fuel 0 (s.emit (.sp_session_user s.g_sess)) with
  | none => rw [hw] at hrun; cases hrun
  | some cs =>
    obtain ⟨count, s₁⟩ := cs
    rw [hw] at hrun
    simp only [] at hrun
    split_ifs at hrun with h1 h2 h3
    · cases hrun; exact absurd rfl hobj
    · cases hrun; exact absurd rfl hobj
    · cases hrun
      exact countrySet_append_set _ _ _
    · cases hrun; exact absurd rfl hobj

/-- The two bytes stored in `countryStr`, and the zero behind them. -/
theorem countryStr_bytes (country : Int) :
    countryStr country
      = [((country / 256) % 256).toNat, (country % 256).toNat, 0] := by
  unfold countryStr toByte
  rw [Int.shiftRight_eq_div_pow]
  rfl

/-- C8 (as amended): whenever `retrieveUser` returns the user object, the country string it
set is the C string in the buffer whose bytes are `(country >> 8) mod 256`, `country mod 256`
and `0`, that is these bytes up to the first zero byte; for non-zero byte values `c1`, `c2`
and the country `c1 * 256 + c2` it is exactly the two characters `c1`, `c2`. -/
theorem retrieveUser_country_decoded (a : UserAnswers) (fuel : Nat) (s : State)
    (r : Nat × State)
    (hrun : Java_jahspotify_impl_JahSpotifyImpl_retrieveUser a fuel s = some r)
    (hobj : r.1 ≠ 0) :
    countrySet r.2.trace
        = some (cstr [((a.country / 256) % 256).toNat, (a.country % 256).toNat, 0]) ∧
      ∀ c1 c2 : Nat, 0 < c1 → c1 < 256 → 0 < c2 → c2 < 256 →
        a.country = (c1 : Int) * 256 + c2 → countrySet r.2.trace = some [c1, c2] := by
  have h := retrieveUser_sets_country a fuel s r hrun hobj
  rw [countryStr_bytes] at h
  refine ⟨h, ?_⟩
  intro c1 c2 h1 h1' h2 h2' hc
  rw [h, hc]
  have e1 : ((((c1 : Int) * 256 + c2) / 256) % 256).toNat = c1 := by omega
  have e2 : ((((c1 : Int) * 256 + c2)) % 256).toNat = c2 := by omega
  rw [e1, e2]
  have n1 : (c1 != 0) = true := by
    rw [bne_iff_ne]
    omega
  have n2 : (c2 != 0) = true := by
    rw [bne_iff_ne]
    omega
  simp [cstr, List.takeWhile, n1, n2]

/-- The instance of `retrieveUser` returns the user object. -/
theorem exUser_returns (country : Int) :
    Java_jahspotify_impl_JahSpotifyImpl_retrieveUser (exUser country) 5 exState
      = some (50,
          ((((((exState.emit (.sp_session_user 1)).emit (.sp_user_is_loaded 3 true)).emit
            .createInstance_User).emit (.sp_user_is_loaded 3 true)).emit
            (.log .user_is_loaded)).emit (.sp_session_user_country 1)).emit
            (.setObjectStringField 50 .country (cstr (countryStr country)))) := rfl

/-- C8 at the instance: the country `'S' << 8 | 'E'` is set as the string `SE`. -/
theorem retrieveUser_country_decoded_witness :
    ∃ r, Java_jahspotify_impl_JahSpotifyImpl_retrieveUser (exUser (83 * 256 + 69)) 5 exState
        = some r ∧ r.1 ≠ 0 ∧ countrySet r.2.trace = some [83, 69] :=
  ⟨_, exUser_returns (83 * 256 + 69), by decide,
    (retrieveUser_country_decoded (exUser (83 * 256 + 69)) 5 exState _
      (exUser_returns (83 * 256 + 69)) (by decide)).2 83 69 (by decide) (by decide)
      (by decide) (by decide) rfl⟩

/-- C8 as stated fails for a zero byte: for `c1 = 0`, `c2 = 69` the country is `69`,
`retrieveUser` returns the user object, and the country string it set is empty, not the two
characters `c1`, `c2`. -/
theorem retrieveUser_country_zero_byte :
    ∃ r, Java_jahspotify_impl_JahSpotifyImpl_retrieveUser (exUser (0 * 256 + 69)) 5 exState
        = some r ∧ r.1 ≠ 0 ∧ countrySet r.2.trace = some [] ∧
      countrySet r.2.trace ≠ some [0, 69] :=
  ⟨_, exUser_returns (0 * 256 + 69), by decide, by decide, by decide⟩

/-! ## Theorems: audio delivery -/

/-- The polling loop of `doPlay` only polls and sleeps, and it ends after at most five
polls. -/
theorem waitTrackLoaded_spec (a : PlayAnswers) :
    ∀ (fuel count : Nat) (s : State), 4 - count < fuel →
      ∃ c s', waitTrackLoaded a fuel count s = some (c, s') ∧
        s'.g_currenttrack = s.g_currenttrack ∧ s'.g_sess = s.g_sess ∧
        ∃ l, s'.trace = s.trace ++ l ∧ ∀ e ∈ l, e.isLockOp = false ∧ e.takesSession = false
  | 0, _, _, h => by omega
  | fuel + 1, count, s, h => by
    by_cases hc : (!a.loadedAt count && decide (count < 4)) = true
    · have hlt : count < 4 := by
        simp only [Bool.and_eq_true, decide_eq_true_eq] at hc
        exact hc.2
      obtain ⟨c, s', hrun, hct, hsess, l, hl, hno⟩ :=
        waitTrackLoaded_spec a fuel (count + 1)
          ((s.emit (.sp_track_is_loaded a.track (a.loadedAt count))).emit (.usleep 250))
          (by omega)
      refine ⟨c, s', ?_, hct, hsess,
        .sp_track_is_loaded a.track (a.loadedAt count) :: .usleep 250 :: l, ?_, ?_⟩
      · rw [waitTrackLoaded]
        simp only [hc, if_true]
        exact hrun
      · rw [hl]
        simp [State.emit]
      · intro e he
        simp only [List.mem_cons] at he
        rcases he with rfl | rfl | he
        · exact ⟨rfl, rfl⟩
        · exact ⟨rfl, rfl⟩
        · exact hno e he
    · refine ⟨count, s.emit (.sp_track_is_loaded a.track (a.loadedAt count)), ?_, rfl, rfl,
        [.sp_track_is_loaded a.track (a.loadedAt count)], rfl, ?_⟩
      · rw [waitTrackLoaded]
        simp only [hc, Bool.false_eq_true, if_false]
      · intro e he
        simp only [List.mem_singleton] at he
        subst he
        exact ⟨rfl, rfl⟩

/-- The calls of `track_ended` are no operations on the mutex. -/
theorem track_ended_no_lock (lib : Lib) (forced : Bool) (s : State) :
    ∃ l, (track_ended lib forced s).trace = s.trace ++ l ∧ ∀ e ∈ l, e.isLockOp = false := by
  refine ⟨_, track_ended_trace lib forced s, ?_⟩
  intro e he
  split_ifs at he <;> simp at he <;> rcases he with rfl | rfl | rfl | rfl | rfl | rfl <;> rfl

/-- A section of calls that takes the mutex, makes calls that are no operations on the mutex
and then at most releases the mutex and signals the start of a track keeps every call on the
session handle under the mutex. -/
theorem sessionCallsLocked_section (body tail : List Event)
    (hb : ∀ e ∈ body, e.isLockOp = false)
    (ht : tail = [] ∨ tail = [.unlock_spotify] ∨
      ∃ u, tail = [.unlock_spotify, .signalTrackStarted u]) :
    sessionCallsLocked 0 (.lock_spotify :: (body ++ tail)) = true := by
  rw [sessionCallsLocked, sessionCallsLocked_held 0 body tail hb]
  rcases ht with rfl | rfl | ⟨u, rfl⟩ <;> rfl

theorem Held.start (s : State) : Held s (s.emit .lock_spotify) :=
  ⟨[], rfl, by simp⟩

theorem Held.emit {s s' : State} (h : Held s s') (e : Event)
    (he : e.isLockOp = false := by rfl) : Held s (s'.emit e) := by
  obtain ⟨body, hb, hno⟩ := h
  refine ⟨body ++ [e], by simp [State.emit, hb], ?_⟩
  intro x hx
  simp only [List.mem_append, List.mem_singleton] at hx
  rcases hx with hx | rfl
  · exact hno x hx
  · exact he

theorem Held.track_ended {s s' : State} (h : Held s s') (lib : Lib) (forced : Bool) :
    Held s (track_ended lib forced s') := by
  obtain ⟨body, hb, hno⟩ := h
  obtain ⟨l, hl, hnl⟩ := track_ended_no_lock lib forced s'
  refine ⟨body ++ l, by simp [hl, hb], ?_⟩
  intro x hx
  simp only [List.mem_append] at hx
  rcases hx with hx | hx
  · exact hno x hx
  · exact hnl x hx

theorem Held.of_trace {s s' s'' : State} (h : Held s s') (ht : s''.trace = s'.trace) :
    Held s s'' := by
  obtain ⟨body, hb, hno⟩ := h
  exact ⟨body, by rw [ht, hb], hno⟩

theorem Held.set_currenttrack {s s' : State} (h : Held s s') (t : Nat) :
    Held s { s' with g_currenttrack := t } :=
  h.of_trace rfl

theorem Held.ite {s x y : State} (c : Prop) [Decidable c] (hx : Held s x) (hy : Held s y) :
    Held s (if c then x else y) := by
  split_ifs
  · exact hx
  · exact hy

theorem Held.wait {s s₀ s₁ : State} (h : Held s s₀) (a : PlayAnswers) (fuel count c : Nat)
    (hfuel : 4 - count < fuel) (hrun : waitTrackLoaded a fuel count s₀ = some (c, s₁)) :
    Held s s₁ := by
  obtain ⟨body, hb, hno⟩ := h
  obtain ⟨c', s', hrun', _, _, l, hl, hnl⟩ := waitTrackLoaded_spec a fuel count s₀ hfuel
  rw [hrun] at hrun'
  cases hrun'
  refine ⟨body ++ l, by simp [hl, hb], ?_⟩
  intro x hx
  simp only [List.mem_append] at hx
  rcases hx with hx | hx
  · exact hno x hx
  · exact (hnl x hx).1

/-- While the mutex is held all calls on the session handle are under it. -/
theorem Held.locked {s s' : State} (h : Held s s') :
    sessionCallsLocked 0 (s'.since s) = true := by
  obtain ⟨body, hb, hno⟩ := h
  rw [State.since_append _ s (.lock_spotify :: (body ++ [])) (by simpa using hb)]
  exact sessionCallsLocked_section body [] hno (Or.inl rfl)

/-- Releasing the mutex keeps the calls on the session handle under it. -/
theorem Held.unlock {s s' : State} (h : Held s s') :
    sessionCallsLocked 0 ((s'.emit .unlock_spotify).since s) = true := by
  obtain ⟨body, hb, hno⟩ := h
  rw [State.since_append _ s (.lock_spotify :: (body ++ [.unlock_spotify]))
    (by simp [State.emit, hb])]
  exact sessionCallsLocked_section body _ hno (Or.inr (Or.inl rfl))

/-- Signalling the start of a track after the release is no call on the session handle. -/
theorem Held.unlock_signal {s s' : State} (h : Held s s') (u : Nat) :
    sessionCallsLocked 0
      (((s'.emit .unlock_spotify).emit (.signalTrackStarted u)).since s) = true := by
  obtain ⟨body, hb, hno⟩ := h
  rw [State.since_append _ s
    (.lock_spotify :: (body ++ [.unlock_spotify, .signalTrackStarted u]))
    (by simp [State.emit, hb])]
  exact sessionCallsLocked_section body _ hno (Or.inr (Or.inr ⟨u, rfl⟩))

/-- The function `doPlay` returns (given fuel for the five polls), and every call it makes
on the session handle is made while it holds `g_spotify_mutex`. -/
theorem doPlay_session_calls_locked (lib : Lib) (a : PlayAnswers) (fuel nativeURI : Nat)
    (s : State) (hfuel : 4 < fuel) :
    ∃ r, doPlay lib a fuel nativeURI s = some r ∧
      sessionCallsLocked 0 (r.2.since s) = true := by
  have h₀ : Held s ((s.emit .lock_spotify).emit (.sp_link_create_from_string nativeURI)) :=
    (Held.start s).emit _
  unfold doPlay
  simp only []
  by_cases hlink : a.link ≠ 0
  · rw [if_pos hlink]
    by_cases htrack : a.track = 0
    · rw [if_pos htrack]
      exact ⟨_, rfl, ((h₀.emit _).emit _).unlock⟩
    · rw [if_neg htrack]
      obtain ⟨c, s₁, hrun, _, _, _⟩ := waitTrackLoaded_spec a fuel 0
        (((s.emit .lock_spotify).emit (.sp_link_create_from_string nativeURI)).emit
          (.sp_link_as_track a.link)) (by omega)
      have h₁ : Held s s₁ := (h₀.emit _).wait a fuel 0 c (by omega) hrun
      rw [hrun]
      simp only []
      by_cases hc : c = 4
      · rw [if_pos hc]
        exact ⟨_, rfl, (h₁.emit _).unlock⟩
      · rw [if_neg hc]
        by_cases herr : a.trackErrorBefore ≠ 0
        · rw [if_pos herr]
          exact ⟨_, rfl, (h₁.emit _).unlock⟩
        · rw [if_neg herr]
          have h₂ := Held.ite (s₁.g_currenttrack ≠ 0)
            (((h₁.emit (.sp_session_player_play s₁.g_sess false)).track_ended lib true)) h₁
          by_cases herr2 : a.trackErrorAfter ≠ 0
          · rw [if_pos herr2, if_neg (by decide)]
            exact ⟨_, rfl, (((h₂.emit _).emit _).emit _).unlock⟩
          · rw [if_neg herr2, if_pos (by decide)]
            refine ⟨_, rfl, ?_⟩
            apply Held.unlock_signal
            refine Held.emit ?_ _ (by rfl)
            apply Held.ite
            · apply Held.track_ended
              refine Held.emit ?_ _ (by rfl)
              apply Held.set_currenttrack
              exact (h₂.emit _).emit _
            · refine Held.emit ?_ _ (by rfl)
              apply Held.set_currenttrack
              exact (h₂.emit _).emit _
  · rw [if_neg hlink]
    exact ⟨_, rfl, ((h₀.emit _).emit _).locked⟩

/-- The dispatch of the event loop takes `g_spotify_mutex` before it ends a track: its calls
on the session handle are made under the mutex. -/
theorem mainLoopDispatch_session_calls_locked (lib : Lib) (s : State) :
    sessionCallsLocked 0 ((mainLoopDispatch lib s).since s) = true := by
  have hw : Held (s.emit .unlock_notify)
      ({ s with g_notify_do := 0, g_playback_done := 0, g_playback_stopped := 0,
                trace := s.trace ++ [.unlock_notify] ++ [.lock_spotify] } : State) :=
    ⟨[], rfl, by simp⟩
  have hall : Held (s.emit .unlock_notify) (mainLoopDispatch lib s) := by
    unfold mainLoopDispatch
    simp only [State.emit]
    exact Held.ite _ (hw.track_ended lib false) (Held.ite _ (hw.track_ended lib true) hw)
  obtain ⟨body, hb, hno⟩ := hall
  rw [State.since_append _ s (.unlock_notify :: .lock_spotify :: (body ++ []))
    (by simpa [State.emit] using hb)]
  exact sessionCallsLocked_section body [] hno (Or.inl rfl)

/-- C10 fails on the code: with the track reported not loaded at the first four calls of
`sp_track_is_loaded` and loaded at the fifth, the last one made, `doPlay` leaves through
the "Track not loaded after 1 second" exit and returns `-1`. -/
theorem doPlay_rejects_track_loaded_at_last_check :
    ∃ r, doPlay exLib exPlay 5 77 exState = some r ∧ r.1 = -1 ∧
      r.2.since exState
        = [.lock_spotify, .sp_link_create_from_string 77, .sp_link_as_track 3,
           .sp_track_is_loaded 4 false, .usleep 250, .sp_track_is_loaded 4 false, .usleep 250,
           .sp_track_is_loaded 4 false, .usleep 250, .sp_track_is_loaded 4 false, .usleep 250,
           .sp_track_is_loaded 4 true, .log .track_not_loaded_after_1_second,
           .unlock_spotify] ∧
      (loadedAnswers (r.2.since exState)).getLast? = some true :=
  ⟨_, rfl, by decide, by decide, by decide⟩

/-! ## Theorems: decoding the hexadecimal rendering -/

/-- The places of the pair written for index `i`. -/
theorem pairs_getD (f g : Nat → Nat) (i : Nat) (hi : i < 20) :
    (((List.range 20).map (fun i => [f i, g i])).flatten).getD (2 * i) 0 = f i ∧
      (((List.range 20).map (fun i => [f i, g i])).flatten).getD (2 * i + 1) 0 = g i := by
  interval_cases i <;> exact ⟨rfl, rfl⟩

/-- A list of `n` numbers is the list of its elements at the indices below `n`. -/
theorem map_getD_range (l : List Nat) (n : Nat) (h : l.length = n) :
    (List.range n).map (fun i => l.getD i 0) = l := by
  apply List.ext_getElem
  · simp [h]
  · intro i h₁ h₂
    simp [List.getElem?_eq_getElem h₂]

/-- Reading the digit pairs of the string `toHexString` returns gives the bytes at the
twenty indices. -/
theorem fromHexString_toHexString (bytes : List Nat) (hb : ∀ b ∈ bytes, isByte b) :
    fromHexString (cstr (toHexString bytes)) = (List.range 20).map (fun i => bytes.getD i 0) := by
  have hlt : ∀ i, bytes.getD i 0 < 256 := by
    intro i
    rw [List.getD_eq_getElem?_getD]
    cases hi : bytes[i]? with
    | none => simp
    | some v => exact hb v (List.getElem?_mem hi)
  rw [toHexString_cstr bytes hb]
  unfold fromHexString
  refine List.map_congr_left (fun i hi => ?_)
  have hi' : i < 20 := List.mem_range.mp hi
  have hp := pairs_getD (fun i => hexChar (bytes.getD i 0 / 16))
    (fun i => hexChar (bytes.getD i 0 % 16)) i hi'
  have h := hlt i
  rw [hp.1, hp.2, hexVal_hexChar _ (by omega), hexVal_hexChar _ (by omega)]
  omega

/-- C16: `toHexString` is injective on 20-byte inputs, and reading each pair of hexadecimal
characters of its result gives back the twenty bytes. -/
theorem toHexString_injective (a b : List Nat) (ha : a.length = 20) (hb : b.length = 20)
    (hab : ∀ x ∈ a, isByte x) (hbb : ∀ x ∈ b, isByte x) :
    (toHexString a = toHexString b → a = b) ∧ fromHexString (cstr (toHexString a)) = a := by
  have da : fromHexString (cstr (toHexString a)) = a := by
    rw [fromHexString_toHexString a hab, map_getD_range a 20 ha]
  have db : fromHexString (cstr (toHexString b)) = b := by
    rw [fromHexString_toHexString b hbb, map_getD_range b 20 hb]
  refine ⟨fun h => ?_, da⟩
  rw [← da, ← db, h]

/-- C16 at the instance: the twenty bytes are read back from their rendering. -/
theorem toHexString_injective_witness :
    (toHexString exBytes = toHexString exBytes → exBytes = exBytes) ∧
      fromHexString (cstr (toHexString exBytes)) = exBytes :=
  toHexString_injective exBytes exBytes (by decide) (by decide) (by unfold isByte; decide)
    (by unfold isByte; decide)

/-! ## Theorems: the portrait link -/

/-- Appending a string that fits to a buffer that holds a string followed by zeros. -/
theorem strcat_zeros (p src : List Nat) (k : Nat) (hp : ∀ c ∈ p, c ≠ 0)
    (hfit : (cstr src).length ≤ k) :
    strcat (p ++ 0 :: List.replicate k 0) src
      = some (p ++ cstr src ++ 0 :: List.replicate (k - (cstr src).length) 0) := by
  unfold strcat
  simp only [cstr_append_zero p _ hp, List.length_append, List.length_cons, List.length_nil,
    List.length_replicate]
  rw [if_pos (by omega)]
  congr 1
  rw [List.take_left' rfl]
  have hd : List.drop (p.length + ((cstr src).length + (0 + 1))) (p ++ 0 :: List.replicate k 0)
      = List.replicate (k - (cstr src).length) 0 := by
    rw [List.drop_append_eq_append_drop]
    simp [List.drop_eq_nil_of_le, List.drop_replicate]
  rw [hd]
  simp

/-- The string `toHexString` returns for bytes has forty characters, none of them zero. -/
theorem toHexString_cstr_length (bytes : List Nat) (hb : ∀ b ∈ bytes, isByte b) :
    (cstr (toHexString bytes)).length = 40 ∧ ∀ c ∈ cstr (toHexString bytes), c ≠ 0 := by
  rw [toHexString_cstr bytes hb]
  refine ⟨pairs_length _ _ 20, ?_⟩
  intro c hc
  simp only [List.mem_flatten, List.mem_map] at hc
  obtain ⟨l, ⟨i, _, rfl⟩, hcl⟩ := hc
  simp only [List.mem_cons, List.mem_singleton, List.not_mem_nil, or_false] at hcl
  rcases hcl with rfl | rfl <;> exact hexChar_ne_zero _

/-- C17: for a 20-byte portrait id the two `strcat` calls stay inside the `len + 1 = 55`
bytes allocated, and the string built is `spotify:image:` followed by the string
`toHexString` returns for the id: 14 + 40 = 54 characters, which with the terminating zero
fill the 55 bytes. -/
theorem portraitLink_fits (portraitURI : List Nat) (_hlen : portraitURI.length = 20)
    (hb : ∀ b ∈ portraitURI, isByte b) :
    ∃ dest, portraitLink portraitURI = some dest ∧
      cstr dest = spotifyURI ++ cstr (toHexString portraitURI) ∧
      (cstr dest).length = 14 + 40 ∧ dest.length = 55 ∧
      (cstr dest).length + 1 ≤ dest.length := by
  obtain ⟨h40, hnz⟩ := toHexString_cstr_length portraitURI hb
  have hs : cstr (spotifyURI ++ [0]) = spotifyURI := by decide
  have hsnz : ∀ c ∈ spotifyURI, c ≠ 0 := by decide
  have e₀ : (List.replicate (spotifyURI.length + 40 + 1) 0).set 0 0
      = [] ++ 0 :: List.replicate 54 0 := by decide
  have e₁ : strcat ([] ++ 0 :: List.replicate 54 0) (spotifyURI ++ [0])
      = some (spotifyURI ++ 0 :: List.replicate 40 0) := by
    rw [strcat_zeros [] (spotifyURI ++ [0]) 54 (by simp) (by rw [hs]; decide), hs]
    rfl
  have e₂ : strcat (spotifyURI ++ 0 :: List.replicate 40 0) (toHexString portraitURI)
      = some (spotifyURI ++ cstr (toHexString portraitURI) ++ 0 :: List.replicate 0 0) := by
    rw [strcat_zeros spotifyURI (toHexString portraitURI) 40 hsnz (by omega), h40]
  have hcs : cstr (spotifyURI ++ cstr (toHexString portraitURI) ++ 0 :: List.replicate 0 0)
      = spotifyURI ++ cstr (toHexString portraitURI) := by
    refine cstr_append_zero _ _ (fun c hc => ?_)
    rcases List.mem_append.mp hc with hc | hc
    · exact hsnz c hc
    · exact hnz c hc
  refine ⟨spotifyURI ++ cstr (toHexString portraitURI) ++ 0 :: List.replicate 0 0,
    ?_, hcs, ?_, ?_, ?_⟩
  · unfold portraitLink
    simp only [hs, h40, e₀, e₁, e₂]
  · rw [hcs, List.length_append, h40]
    rfl
  · simp only [List.length_append, h40, List.length_cons, List.length_replicate]
    rfl
  · rw [hcs]
    simp only [List.length_append, h40, List.length_cons, List.length_replicate]
    decide

/-- C17 at the instance: the link of the twenty bytes. -/
theorem portraitLink_fits_witness :
    ∃ dest, portraitLink exBytes = some dest ∧
      cstr dest = spotifyURI ++ cstr (toHexString exBytes) ∧
      (cstr dest).length = 14 + 40 ∧ dest.length = 55 ∧
      (cstr dest).length + 1 ≤ dest.length :=
  portraitLink_fits exBytes (by decide) (by unfold isByte; decide)

/-! ## Theorems: login -/

/-- The calls made since a state whose trace is a prefix, with the prefix written as
appended lists. -/
theorem State.since_trace (s' s : State) (l : List Event) (h : s'.trace = s.trace ++ l)
    (e : Event) : e ∈ s'.since s ↔ e ∈ l := by
  rw [State.since_append s' s l h]

/-- The calls of the relogin branch of `nativeLogin`, and its result. -/
theorem nativeLogin_relogin (a : LoginAnswers) (username password blob savePassword : Nat)
    (s : State) (hc : username = 0 ∧ (password = 0 ∨ blob = 0)) :
    (Java_jahspotify_impl_JahSpotifyImpl_nativeLogin a username password blob savePassword
        s).2.trace
      = s.trace ++ (.log .login_without_username_or_password :: .sp_session_relogin s.g_sess ::
          (if a.relogin = a.SP_ERROR_NO_CREDENTIALS then
            [.log .credentials_not_specified_and_not_remembered] else [])) ∧
    (Java_jahspotify_impl_JahSpotifyImpl_nativeLogin a username password blob savePassword
        s).1 = if a.relogin = a.SP_ERROR_NO_CREDENTIALS then 1 else 0 := by
  unfold Java_jahspotify_impl_JahSpotifyImpl_nativeLogin
  rw [if_pos hc]
  by_cases hr : a.relogin = a.SP_ERROR_NO_CREDENTIALS
  · simp only [if_pos hr]
    exact ⟨by simp [State.emit], trivial⟩
  · simp only [if_neg hr]
    exact ⟨by simp [State.emit], trivial⟩

/-- The calls of the login branch of `nativeLogin`, and its result. -/
theorem nativeLogin_login (a : LoginAnswers) (username password blob savePassword : Nat)
    (s : State) (hc : ¬ (username = 0 ∧ (password = 0 ∨ blob = 0))) :
    (Java_jahspotify_impl_JahSpotifyImpl_nativeLogin a username password blob savePassword
        s).2.trace
      = s.trace ++ (.GetStringUTFChars username ::
          ((if password ≠ 0 then [.GetStringUTFChars password] else [])
            ++ (if blob ≠ 0 then [.GetStringUTFChars blob] else [])
            ++ .sp_session_login s.g_sess (a.GetStringUTFChars username)
                (if password ≠ 0 then a.GetStringUTFChars password else 0)
                (decide (savePassword = 1))
                (if blob ≠ 0 then a.GetStringUTFChars blob else 0)
              :: ((if a.GetStringUTFChars username ≠ 0 then
                    [.ReleaseStringUTFChars username (a.GetStringUTFChars username)] else [])
                ++ (if (if password ≠ 0 then a.GetStringUTFChars password else 0) ≠ 0 then
                    [.ReleaseStringUTFChars password
                      (if password ≠ 0 then a.GetStringUTFChars password else 0)] else [])
                ++ (if (if blob ≠ 0 then a.GetStringUTFChars blob else 0) ≠ 0 then
                    [.ReleaseStringUTFChars blob
                      (if blob ≠ 0 then a.GetStringUTFChars blob else 0)] else [])))) ∧
    (Java_jahspotify_impl_JahSpotifyImpl_nativeLogin a username password blob savePassword
        s).1 = 0 := by
  unfold Java_jahspotify_impl_JahSpotifyImpl_nativeLogin
  rw [if_neg hc]
  refine ⟨?_, rfl⟩
  simp only [State.emit]
  by_cases hp : password ≠ 0 <;> by_cases hb : blob ≠ 0 <;>
    by_cases hu : a.GetStringUTFChars username ≠ 0 <;>
    by_cases hpp : a.GetStringUTFChars password ≠ 0 <;>
    by_cases hbb : a.GetStringUTFChars blob ≠ 0 <;>
    simp [hp, hb, hu, hpp, hbb]

/-- C12: `nativeLogin` returns `1` if and only if it called `sp_session_relogin` (the branch
taken when credentials are missing) and the answer was `SP_ERROR_NO_CREDENTIALS`; in every
other case, whatever the username, password, blob and `savePassword`, it returns `0`. -/
theorem nativeLogin_result (a : LoginAnswers) (username password blob savePassword : Nat)
    (s : State) :
    ((Java_jahspotify_impl_JahSpotifyImpl_nativeLogin a username password blob savePassword
          s).1 = 1 ↔
        (.sp_session_relogin s.g_sess) ∈
            (Java_jahspotify_impl_JahSpotifyImpl_nativeLogin a username password blob
              savePassword s).2.since s ∧
          a.relogin = a.SP_ERROR_NO_CREDENTIALS) ∧
      ((Java_jahspotify_impl_JahSpotifyImpl_nativeLogin a username password blob savePassword
          s).1 ≠ 1 →
        (Java_jahspotify_impl_JahSpotifyImpl_nativeLogin a username password blob savePassword
          s).1 = 0) := by
  by_cases hc : username = 0 ∧ (password = 0 ∨ blob = 0)
  · obtain ⟨htr, hres⟩ := nativeLogin_relogin a username password blob savePassword s hc
    rw [State.since_trace _ s _ htr, hres]
    by_cases hr : a.relogin = a.SP_ERROR_NO_CREDENTIALS
    · simp [hr]
    · simp [hr]
  · obtain ⟨htr, hres⟩ := nativeLogin_login a username password blob savePassword s hc
    rw [State.since_trace _ s _ htr, hres]
    refine ⟨⟨fun h => absurd h (by decide), fun h => ?_⟩, fun _ => rfl⟩
    exfalso
    have hm := h.1
    simp only [List.mem_cons, List.mem_append] at hm
    rcases hm with hm | (hm | hm) | hm | (hm | hm) | hm
    · cases hm
    · split_ifs at hm <;> simp at hm
    · split_ifs at hm <;> simp at hm
    · cases hm
    · split_ifs at hm <;> simp at hm
    · split_ifs at hm <;> simp at hm
    · split_ifs at hm <;> simp at hm

/-- C12 at the instance: without credentials and with the answer
`SP_ERROR_NO_CREDENTIALS` the result is `1`; with a username and a password it is `0`. -/
theorem nativeLogin_result_witness :
    (Java_jahspotify_impl_JahSpotifyImpl_nativeLogin exLogin 0 0 0 1 exState).1 = 1 ∧
      (Java_jahspotify_impl_JahSpotifyImpl_nativeLogin exLogin 7 8 0 1 exState).1 = 0 :=
  ⟨(nativeLogin_result exLogin 0 0 0 1 exState).1.2 ⟨by decide, rfl⟩,
   (nativeLogin_result exLogin 7 8 0 1 exState).2 (by decide)⟩

/-- C13 fails on the code: called without a username but with a password and a blob,
`nativeLogin` does not call `sp_session_relogin`; it converts the null username and calls
`sp_session_login` with it. Called with a username and neither password nor blob it calls
`sp_session_login` as well. -/
theorem nativeLogin_login_without_username :
    (Java_jahspotify_impl_JahSpotifyImpl_nativeLogin exLogin 0 8 9 1 exState).2.since exState
        = [.GetStringUTFChars 0, .GetStringUTFChars 8, .GetStringUTFChars 9,
           .sp_session_login 1 100 108 true 109, .ReleaseStringUTFChars 0 100,
           .ReleaseStringUTFChars 8 108, .ReleaseStringUTFChars 9 109] ∧
      (Java_jahspotify_impl_JahSpotifyImpl_nativeLogin exLogin 7 0 0 1 exState).2.since exState
        = [.GetStringUTFChars 7, .sp_session_login 1 107 0 true 0,
           .ReleaseStringUTFChars 7 107] := by
  constructor <;> decide

/-! ## Theorems: the time-out of `retrieveUser` -/

/-- The polling loop of `retrieveUser` ends after at most five polls, at the first poll that
reports the user loaded or, failing that among the first four, at the fifth; it only polls
and sleeps. -/
theorem waitUserLoaded_spec (a : UserAnswers) :
    ∀ (fuel count : Nat) (s : State), 4 - count < fuel → count ≤ 4 →
      ∃ c s', waitUserLoaded a fuel count s = some (c, s') ∧ count ≤ c ∧ c ≤ 4 ∧
        (∀ j, count ≤ j → j < c → a.loadedAt j = false) ∧
        (c < 4 → a.loadedAt c = true) ∧
        ∃ l, s'.trace = s.trace ++ l ∧
          ∀ e ∈ l, e.isSetField = false ∧ e ≠ .log .timeout_waiting_for_user
  | 0, _, _, h, _ => by omega
  | fuel + 1, count, s, h, h4 => by
    by_cases hc : (!a.loadedAt count && decide (count < 4)) = true
    · have hlt : count < 4 := by
        simp only [Bool.and_eq_true, decide_eq_true_eq] at hc
        exact hc.2
      have hnl : a.loadedAt count = false := by
        simp only [Bool.and_eq_true, Bool.not_eq_true'] at hc
        exact hc.1
      obtain ⟨c, s', hrun, hle, hc4, hfalse, htrue, l, hl, hno⟩ :=
        waitUserLoaded_spec a fuel (count + 1)
          ((s.emit (.sp_user_is_loaded a.user (a.loadedAt count))).emit (.usleep 250))
          (by omega) (by omega)
      refine ⟨c, s', ?_, by omega, hc4, ?_, htrue,
        .sp_user_is_loaded a.user (a.loadedAt count) :: .usleep 250 :: l, ?_, ?_⟩
      · rw [waitUserLoaded]
        simp only [hc, if_true]
        exact hrun
      · intro j hj hjc
        by_cases hjeq : j = count
        · rw [hjeq]; exact hnl
        · exact hfalse j (by omega) hjc
      · rw [hl]
        simp [State.emit]
      · intro e he
        simp only [List.mem_cons] at he
        rcases he with rfl | rfl | he
        · exact ⟨rfl, by simp⟩
        · exact ⟨rfl, by simp⟩
        · exact hno e he
    · refine ⟨count, s.emit (.sp_user_is_loaded a.user (a.loadedAt count)), ?_, le_refl _, h4,
        ?_, ?_, [.sp_user_is_loaded a.user (a.loadedAt count)], rfl, ?_⟩
      · rw [waitUserLoaded]
        simp only [hc, Bool.false_eq_true, if_false]
      · intro j hj hjc
        omega
      · intro hlt
        simp only [Bool.and_eq_true, Bool.not_eq_true', decide_eq_true_eq, not_and] at hc
        cases hv : a.loadedAt count with
        | true => rfl
        | false => exact absurd hlt (hc hv)
      · intro e he
        simp only [List.mem_singleton] at he
        subst he
        exact ⟨rfl, by simp⟩

/-- C11 (as amended): `retrieveUser` returns (given fuel for the five polls); it leaves
through the "Timeout while waiting for user to load" exit only if the user was reported not
loaded at each of the first four checks; and whenever the user is reported loaded at one of
the first four checks, the `User` object can be created and the user is reported loaded
again at the check made after creating it, the result is that object, populated with the
names that are present and the country; if that later check reports the user not loaded,
the object is deleted, no field is set, and the result is `NULL`. -/
theorem retrieveUser_timeout_only_unloaded (a : UserAnswers) (fuel : Nat) (s : State)
    (hfuel : 4 < fuel) :
    ∃ r, Java_jahspotify_impl_JahSpotifyImpl_retrieveUser a fuel s = some r ∧
      ((.log .timeout_waiting_for_user) ∈ r.2.since s → ∀ k, k < 4 → a.loadedAt k = false) ∧
      (∀ k, k < 4 → (∀ j, j < k → a.loadedAt j = false) → a.loadedAt k = true →
        a.userInstance ≠ 0 → a.loadedAt (k + 1) = true →
        r.1 = a.userInstance ∧ (r.2.since s).filter Event.isSetField = userFields a) ∧
      ∀ k, k < 4 → (∀ j, j < k → a.loadedAt j = false) → a.loadedAt k = true →
        a.userInstance ≠ 0 → a.loadedAt (k + 1) = false →
        r.1 = 0 ∧ (r.2.since s).filter Event.isSetField = [] ∧
        ∃ before, r.2.since s = before ++ [.createInstance_User,
          .sp_user_is_loaded a.user false, .DeleteLocalRef a.userInstance] := by
  obtain ⟨c, s₁, hrun, _, hc4, hfalse, htrue, l, hl, hno⟩ :=
    waitUserLoaded_spec a fuel 0 (s.emit (.sp_session_user s.g_sess)) (by omega) (by omega)
  have hl' : s₁.trace = s.trace ++ (.sp_session_user s.g_sess :: l) := by
    rw [hl]
    simp [State.emit]
  have hfl : l.filter Event.isSetField = [] := by
    rw [List.filter_eq_nil_iff]
    intro e he
    simp [(hno e he).1]
  have hnt : (.log .timeout_waiting_for_user) ∉ l := fun h => (hno _ h).2 rfl
  have hfirst : ∀ k, k < 4 → (∀ j, j < k → a.loadedAt j = false) → a.loadedAt k = true →
      c = k := by
    intro k hk hkf hkt
    rcases Nat.lt_trichotomy c k with h | h | h
    · have h1 := htrue (by omega)
      rw [hkf c h] at h1
      cases h1
    · exact h
    · have h1 := hfalse k (Nat.zero_le _) h
      rw [hkt] at h1
      cases h1
  unfold Java_jahspotify_impl_JahSpotifyImpl_retrieveUser
  simp only []
  rw [hrun]
  simp only []
  by_cases h4 : c = 4
  · rw [if_pos h4]
    refine ⟨_, rfl, ?_, ?_, ?_⟩
    · intro _ k hk
      exact hfalse k (Nat.zero_le _) (by omega)
    · intro k hk hkf hkt _ _
      have := hfirst k hk hkf hkt
      omega
    · intro k hk hkf hkt _ _
      have := hfirst k hk hkf hkt
      omega
  · rw [if_neg h4]
    by_cases hu : a.userInstance = 0
    · rw [if_pos hu]
      refine ⟨_, rfl, ?_, ?_, ?_⟩
      · intro hmem
        exfalso
        rw [State.since_trace _ s (.sp_session_user s.g_sess :: (l ++ [.createInstance_User,
          .log .could_not_create_user])) (by simp [State.emit, hl'])] at hmem
        simp only [List.mem_cons, List.mem_append, List.mem_singleton, List.not_mem_nil,
          or_false] at hmem
        rcases hmem with hm | hm | hm | hm
        · cases hm
        · exact hnt hm
        · cases hm
        · cases hm
      · intro k _ _ _ hne _
        exact absurd hu hne
      · intro k _ _ _ hne _
        exact absurd hu hne
    · rw [if_neg hu]
      by_cases hre : a.loadedAt (c + 1) = true
      · rw [if_pos hre]
        have hnot : ∀ k, k < 4 → (∀ j, j < k → a.loadedAt j = false) → a.loadedAt k = true →
            a.loadedAt (k + 1) = false → False := by
          intro k hk hkf hkt hre'
          rw [← hfirst k hk hkf hkt, hre] at hre'
          cases hre'
        clear hrun hfirst hfalse htrue hno hl hu hre
        obtain ⟨user, loadedAt, userInstance, dn, cn, country⟩ := a
        refine ⟨_, rfl, ?_, ?_, ?_⟩
        · intro hmem
          exfalso
          simp only [State.since, State.emit, hl'] at hmem
          cases dn <;> cases cn <;> simp at hmem <;> exact hnt hmem
        · intro k _ _ _ _ _
          refine ⟨rfl, ?_⟩
          simp only [State.since, State.emit, hl', userFields]
          cases dn <;> cases cn <;>
            simp [List.filter_append, hfl, Event.isSetField, List.filter_cons]
        · intro k hk hkf hkt _ hre'
          exact absurd (hnot k hk hkf hkt hre') id
      · rw [if_neg hre]
        have hre0 : a.loadedAt (c + 1) = false := by simpa using hre
        have hsince : (((s₁.emit .createInstance_User).emit
              (.sp_user_is_loaded a.user (a.loadedAt (c + 1)))).emit
              (.DeleteLocalRef a.userInstance)).since s
            = .sp_session_user s.g_sess :: (l ++ [.createInstance_User,
                .sp_user_is_loaded a.user false, .DeleteLocalRef a.userInstance]) :=
          State.since_append _ s _ (by simp [State.emit, hl', hre0])
        refine ⟨_, rfl, ?_, ?_, ?_⟩
        · intro hmem
          exfalso
          rw [State.since_trace _ s (.sp_session_user s.g_sess :: (l ++ [.createInstance_User,
            .sp_user_is_loaded a.user (a.loadedAt (c + 1)),
            .DeleteLocalRef a.userInstance])) (by simp [State.emit, hl'])] at hmem
          simp only [List.mem_cons, List.mem_append, List.mem_singleton, List.not_mem_nil,
            or_false] at hmem
          rcases hmem with hm | hm | hm | hm | hm
          · cases hm
          · exact hnt hm
          · cases hm
          · cases hm
          · cases hm
        · intro k hk hkf hkt _ hre'
          have := hfirst k hk hkf hkt
          rw [this] at hre
          exact absurd hre' hre
        · intro k _ _ _ _ _
          refine ⟨rfl, ?_, .sp_session_user s.g_sess :: l, ?_⟩
          · rw [hsince]
            simp [List.filter_append, hfl, Event.isSetField, List.filter_cons]
          · rw [hsince]
            simp

/-- C11 at the instances: not loaded at the first check and loaded from the second on, the
user object is returned with its fields set; loaded at the first check and not loaded at the
check after the object was created, the object is deleted and the result is `NULL`. -/
theorem retrieveUser_timeout_only_unloaded_witness :
    (∃ r, Java_jahspotify_impl_JahSpotifyImpl_retrieveUser exUserSecond 5 exState = some r ∧
      r.1 = 50 ∧ (r.2.since exState).filter Event.isSetField = userFields exUserSecond) ∧
    (∃ r, Java_jahspotify_impl_JahSpotifyImpl_retrieveUser exUserOnce 5 exState = some r ∧
      r.1 = 0 ∧ (r.2.since exState).filter Event.isSetField = [] ∧
      ∃ before, r.2.since exState = before ++ [.createInstance_User,
        .sp_user_is_loaded 3 false, .DeleteLocalRef 50]) := by
  constructor
  · obtain ⟨r, h, _, h2, _⟩ :=
      retrieveUser_timeout_only_unloaded exUserSecond 5 exState (by decide)
    exact ⟨r, h, h2 1 (by decide) (by decide) rfl (by decide) rfl⟩
  · obtain ⟨r, h, _, _, h3⟩ :=
      retrieveUser_timeout_only_unloaded exUserOnce 5 exState (by decide)
    exact ⟨r, h, h3 0 (by decide) (by simp) rfl (by decide) rfl⟩

/-- C11 as stated fails twice. With the user reported not loaded at four checks and loaded
at the fifth, the last one made, `retrieveUser` leaves through the time-out exit. With the
user reported loaded at the first check and not loaded at the check made after the `User`
object was created, it returns `NULL` although the user was reported loaded at a check and
the object could be created. -/
theorem retrieveUser_null_after_loaded_check :
    (∃ r, Java_jahspotify_impl_JahSpotifyImpl_retrieveUser exUserLate 5 exState = some r ∧
      r.1 = 0 ∧ (.log .timeout_waiting_for_user) ∈ r.2.since exState ∧
      (r.2.since exState).getLast? = some (.log .timeout_waiting_for_user) ∧
      (.sp_user_is_loaded 3 true) ∈ r.2.since exState) ∧
    (∃ r, Java_jahspotify_impl_JahSpotifyImpl_retrieveUser exUserOnce 5 exState = some r ∧
      r.1 = 0 ∧ exUserOnce.userInstance ≠ 0 ∧
      r.2.since exState
        = [.sp_session_user 1, .sp_user_is_loaded 3 true, .createInstance_User,
           .sp_user_is_loaded 3 false, .DeleteLocalRef 50]) :=
  ⟨⟨_, rfl, by decide, by decide, by decide, by decide⟩, ⟨_, rfl, by decide, by decide, by decide⟩⟩

/-! ## Theorems: the unload before the load in `doPlay` -/

theorem State.Extends.ext_refl (s : State) : s.Extends s := ⟨[], by simp⟩

theorem State.Extends.ext_emit {s s' : State} (h : s.Extends s') (e : Event) :
    s.Extends (s'.emit e) := by
  obtain ⟨l, hl⟩ := h
  exact ⟨l ++ [e], by simp [State.emit, hl]⟩

theorem State.Extends.ext_track_ended {s s' : State} (h : s.Extends s') (lib : Lib)
    (forced : Bool) : s.Extends (track_ended lib forced s') := by
  obtain ⟨l, hl⟩ := h
  exact ⟨l ++ _, by rw [track_ended_trace, hl, List.append_assoc]⟩

theorem State.Extends.ext_set_currenttrack {s s' : State} (h : s.Extends s') (t : Nat) :
    s.Extends { s' with g_currenttrack := t } := h

theorem State.Extends.ext_ite {s x y : State} (c : Prop) [Decidable c] (hx : s.Extends x)
    (hy : s.Extends y) : s.Extends (if c then x else y) := by
  split_ifs
  · exact hx
  · exact hy

/-- When the track is reported loaded at one of the first four polls, the polling loop of
`doPlay` ends with a count below four; it calls nothing on the session and ends no track. -/
theorem waitTrackLoaded_reaches (a : PlayAnswers) (k : Nat) (hk : k < 4)
    (hloaded : a.loadedAt k = true) :
    ∀ (fuel count : Nat) (s : State), 4 - count < fuel → count ≤ k →
      ∃ c s', waitTrackLoaded a fuel count s = some (c, s') ∧ c < 4 ∧
        s'.g_currenttrack = s.g_currenttrack ∧ s'.g_sess = s.g_sess ∧
        ∃ l, s'.trace = s.trace ++ l ∧ ∀ e ∈ l, e.takesSession = false ∧ e.endsTrack = false
  | 0, _, _, h, _ => by omega
  | fuel + 1, count, s, h, hck => by
    by_cases hc : (!a.loadedAt count && decide (count < 4)) = true
    · have hnl : a.loadedAt count = false := by
        simp only [Bool.and_eq_true, Bool.not_eq_true'] at hc
        exact hc.1
      have hne : count ≠ k := by
        intro h'
        rw [h', hloaded] at hnl
        cases hnl
      obtain ⟨c, s', hrun, hc4, hct, hsess, l, hl, hno⟩ :=
        waitTrackLoaded_reaches a k hk hloaded fuel (count + 1)
          ((s.emit (.sp_track_is_loaded a.track (a.loadedAt count))).emit (.usleep 250))
          (by omega) (by omega)
      refine ⟨c, s', ?_, hc4, hct, hsess,
        .sp_track_is_loaded a.track (a.loadedAt count) :: .usleep 250 :: l, ?_, ?_⟩
      · rw [waitTrackLoaded]
        simp only [hc, if_true]
        exact hrun
      · rw [hl]
        simp [State.emit]
      · intro e he
        simp only [List.mem_cons] at he
        rcases he with rfl | rfl | he
        · exact ⟨rfl, rfl⟩
        · exact ⟨rfl, rfl⟩
        · exact hno e he
    · refine ⟨count, s.emit (.sp_track_is_loaded a.track (a.loadedAt count)), ?_, by omega,
        rfl, rfl, [.sp_track_is_loaded a.track (a.loadedAt count)], rfl, ?_⟩
      · rw [waitTrackLoaded]
        simp only [hc, Bool.false_eq_true, if_false]
      · intro e he
        simp only [List.mem_singleton] at he
        subst he
        exact ⟨rfl, rfl⟩

/-- After `track_ended` there is no current track. -/
theorem track_ended_currenttrack (lib : Lib) (forced : Bool) (s : State) :
    (track_ended lib forced s).g_currenttrack = 0 := by
  unfold track_ended
  simp only [State.emit]
  split_ifs with h <;> first | rfl | (simpa using h)

/-- The load step of `doPlay` (JahSpotify.c 1448-1477), from any state: it returns, its
calls start with the reference and the load of the new track, and if neither the track nor
the load has an error the result is `1` and the new track is the current track. -/
theorem doPlay_load_step (lib : Lib) (a : PlayAnswers) (nativeURI : Nat) (s₂ : State) :
    ∃ r,
      (let s := s₂.emit (.sp_track_add_ref a.track)
       let s := s.emit (.sp_session_player_load s.g_sess a.track)
       if a.trackErrorAfter ≠ 0 then
         let s := s.emit (.log .issue_loading_track)
         let ret : Int := -1
         let s := s.emit .unlock_spotify
         some (ret, if ret > 0 then s.emit (.signalTrackStarted nativeURI) else s)
       else
         let s := { s with g_currenttrack := a.track }
         let s :=
           if a.loadResult ≠ 0 then
             track_ended lib true (s.emit (.signalTrackStarted nativeURI))
           else s.emit (.sp_session_player_play s.g_sess true)
         let s := s.emit (.sp_link_release a.link)
         let ret : Int := 1
         let s := s.emit .unlock_spotify
         some (ret, if ret > 0 then s.emit (.signalTrackStarted nativeURI) else s)) = some r ∧
      (∃ post, r.2.trace = s₂.trace ++ [.sp_track_add_ref a.track,
        .sp_session_player_load s₂.g_sess a.track] ++ post) ∧
      (a.trackErrorAfter = 0 → a.loadResult = 0 → r.1 = 1 ∧ r.2.g_currenttrack = a.track) := by
  have conv : ∀ F : State, ((s₂.emit (.sp_track_add_ref a.track)).emit
      (.sp_session_player_load s₂.g_sess a.track)).Extends F →
      ∃ post, F.trace = s₂.trace ++ [.sp_track_add_ref a.track,
        .sp_session_player_load s₂.g_sess a.track] ++ post := by
    intro F hF
    obtain ⟨post, hpost⟩ := hF
    exact ⟨post, by rw [hpost]; simp [State.emit]⟩
  simp only []
  by_cases he : a.trackErrorAfter ≠ 0
  · rw [if_pos he, if_neg (by decide)]
    refine ⟨_, rfl, conv _ ?_, ?_⟩
    · exact ((State.Extends.ext_refl _).ext_emit _).ext_emit _
    · intro h0
      exact absurd h0 he
  · rw [if_neg he, if_pos (by decide)]
    refine ⟨_, rfl, conv _ ?_, ?_⟩
    · apply State.Extends.ext_emit
      apply State.Extends.ext_emit
      apply State.Extends.ext_emit
      apply State.Extends.ext_ite
      · apply State.Extends.ext_track_ended
        apply State.Extends.ext_emit
        apply State.Extends.ext_set_currenttrack
        exact State.Extends.ext_refl _
      · apply State.Extends.ext_emit
        apply State.Extends.ext_set_currenttrack
        exact State.Extends.ext_refl _
    · intro _ h0
      have hr : ¬ a.loadResult ≠ 0 := by simpa using h0
      rw [if_neg hr]
      exact ⟨rfl, rfl⟩

/-- C15: when `doPlay` reaches the load step (the URI is a track link, the track is reported
loaded at one of the first four polls and has no error) while a track is current, then
before `sp_session_player_load` is called for the new track it pauses the player and ends
the old track by force (unload, one release of the old track, one forced track-ended
signal), with no call on the session and no end of a track before the pause; and if
neither the track nor the load has an error, `doPlay` returns `1` with the new track as
the current track. -/
theorem doPlay_unloads_before_load (lib : Lib) (a : PlayAnswers) (fuel nativeURI : Nat)
    (s : State) (k : Nat) (hfuel : 4 < fuel) (hlink : a.link ≠ 0) (htrack : a.track ≠ 0)
    (hk : k < 4) (hloaded : a.loadedAt k = true) (herr : a.trackErrorBefore = 0)
    (hcur : s.g_currenttrack ≠ 0) :
    ∃ r pre post, doPlay lib a fuel nativeURI s = some r ∧
      r.2.since s = pre ++
        ([.sp_session_player_play s.g_sess false, .enter_track_ended true,
            .sp_link_create_from_track s.g_currenttrack]
          ++ (if lib.sp_link_create_from_track s.g_currenttrack ≠ 0 then
                [.sp_link_release (lib.sp_link_create_from_track s.g_currenttrack)] else [])
          ++ [.sp_session_player_unload s.g_sess, .sp_track_release s.g_currenttrack,
              .signalTrackEnded
                (if lib.sp_link_create_from_track s.g_currenttrack ≠ 0 then
                  some (lib.sp_link_create_from_track s.g_currenttrack) else none) true,
              .sp_track_add_ref a.track, .sp_session_player_load s.g_sess a.track]) ++ post ∧
      (∀ e ∈ pre, e.takesSession = false ∧ e.endsTrack = false) ∧
      (a.trackErrorAfter = 0 → a.loadResult = 0 → r.1 = 1 ∧ r.2.g_currenttrack = a.track) := by
  obtain ⟨c, s₁, hrun, hc4, hct, hsess, l, hl, hno⟩ :=
    waitTrackLoaded_reaches a k hk hloaded fuel 0
      (((s.emit .lock_spotify).emit (.sp_link_create_from_string nativeURI)).emit
        (.sp_link_as_track a.link)) (by omega) (Nat.zero_le _)
  have hct' : s₁.g_currenttrack = s.g_currenttrack := hct
  have hsess' : s₁.g_sess = s.g_sess := hsess
  have hcur' : s₁.g_currenttrack ≠ 0 := by rw [hct']; exact hcur
  obtain ⟨r, hr, ⟨post, hpost⟩, hfin⟩ := doPlay_load_step lib a nativeURI
    (track_ended lib true (s₁.emit (.sp_session_player_play s₁.g_sess false)))
  refine ⟨r, [.lock_spotify, .sp_link_create_from_string nativeURI,
    .sp_link_as_track a.link] ++ l, post, ?_, ?_, ?_, hfin⟩
  · unfold doPlay
    simp only []
    rw [if_pos hlink, if_neg htrack, hrun]
    simp only []
    rw [if_neg (by omega), if_neg (by simpa using herr), if_pos hcur']
    exact hr
  · apply State.since_append
    rw [hpost, track_ended_trace, (track_ended_flags lib true _).2.2.2]
    have e1 : (s₁.emit (.sp_session_player_play s₁.g_sess false)).g_currenttrack
        = s.g_currenttrack := hct'
    have e2 : (s₁.emit (.sp_session_player_play s₁.g_sess false)).g_sess = s.g_sess := hsess'
    rw [e1, e2, if_pos hcur, State.emit_trace, hl, hsess']
    simp [State.emit]
  · intro e he
    simp only [List.mem_append, List.mem_cons, List.mem_singleton, List.not_mem_nil,
      or_false] at he
    rcases he with (rfl | rfl | rfl) | he
    · exact ⟨rfl, rfl⟩
    · exact ⟨rfl, rfl⟩
    · exact ⟨rfl, rfl⟩
    · exact hno e he

/-- C15 at the instance: track 5 is playing when track 4 is played. -/
theorem doPlay_unloads_before_load_witness :
    ∃ r pre post, doPlay exLib exPlayOk 5 77 exState = some r ∧
      r.2.since exState = pre ++
        ([.sp_session_player_play 1 false, .enter_track_ended true,
            .sp_link_create_from_track 5]
          ++ (if exLib.sp_link_create_from_track 5 ≠ 0 then
                [.sp_link_release (exLib.sp_link_create_from_track 5)] else [])
          ++ [.sp_session_player_unload 1, .sp_track_release 5,
              .signalTrackEnded
                (if exLib.sp_link_create_from_track 5 ≠ 0 then
                  some (exLib.sp_link_create_from_track 5) else none) true,
              .sp_track_add_ref 4, .sp_session_player_load 1 4]) ++ post ∧
      (∀ e ∈ pre, e.takesSession = false ∧ e.endsTrack = false) ∧
      (exPlayOk.trackErrorAfter = 0 → exPlayOk.loadResult = 0 →
        r.1 = 1 ∧ r.2.g_currenttrack = 4) :=
  doPlay_unloads_before_load exLib exPlayOk 5 77 exState 0 (by decide) (by decide) (by decide)
    (by decide) rfl rfl (by decide)

/-! ## Theorems: `nativeInitialize` -/

theorem State.Looped.loop_refl (s : State) : s.Looped s := ⟨rfl, [], by simp, by simp⟩

theorem State.Looped.loop_emit {s s' : State} (h : s.Looped s') (e : Event)
    (he : e ≠ .signalInitialized 0 := by simp) : s.Looped (s'.emit e) := by
  obtain ⟨hs, l, hl, hno⟩ := h
  refine ⟨hs, l ++ [e], by simp [State.emit, hl], ?_⟩
  intro x hx
  simp only [List.mem_append, List.mem_singleton] at hx
  rcases hx with hx | rfl
  · exact hno x hx
  · exact he

theorem State.Looped.of_eq {s s' s'' : State} (h : s.Looped s') (ht : s''.trace = s'.trace)
    (hs : s''.g_sess = s'.g_sess) : s.Looped s'' := by
  obtain ⟨hs', l, hl, hno⟩ := h
  exact ⟨hs.trans hs', l, ht.trans hl, hno⟩

theorem State.Looped.loop_ite {s x y : State} (c : Prop) [Decidable c] (hx : s.Looped x)
    (hy : s.Looped y) : s.Looped (if c then x else y) := by
  split_ifs
  · exact hx
  · exact hy

theorem State.Looped.loop_track_ended {s s' : State} (h : s.Looped s') (lib : Lib)
    (forced : Bool) : s.Looped (track_ended lib forced s') := by
  obtain ⟨hs, l, hl, hno⟩ := h
  refine ⟨(track_ended_flags lib forced s').2.2.2.trans hs, l ++ _,
    by rw [track_ended_trace, hl, List.append_assoc], ?_⟩
  intro x hx
  rcases List.mem_append.mp hx with hx | hx
  · exact hno x hx
  · intro hx0
    rw [hx0] at hx
    split_ifs at hx <;> simp at hx

theorem State.Looped.mainLoopDispatch {s s' : State} (h : s.Looped s') (lib : Lib) :
    s.Looped (mainLoopDispatch lib s') := by
  have hw : s.Looped
      ((({ s' with g_notify_do := 0, g_playback_done := 0, g_playback_stopped := 0 } :
        State).emit .unlock_notify).emit .lock_spotify) :=
    ((h.of_eq rfl rfl).loop_emit _).loop_emit _
  unfold JahSpotify.mainLoopDispatch
  exact State.Looped.loop_ite _ (hw.loop_track_ended lib false)
    (State.Looped.loop_ite _ (hw.loop_track_ended lib true) hw)

theorem State.Looped.waitNotified {s₀ : State} :
    ∀ (snaps : List Flags) (s s' : State), s₀.Looped s →
      JahSpotify.waitNotified snaps s = some s' → s₀.Looped s'
  | [], s, s', h, hrun => by
    unfold JahSpotify.waitNotified at hrun
    split_ifs at hrun
    cases hrun
    exact h
  | f :: rest, s, s', h, hrun => by
    unfold JahSpotify.waitNotified at hrun
    split_ifs at hrun
    · have h' : s₀.Looped ((s.emit .pthread_cond_wait).setFlags f) :=
        (h.loop_emit .pthread_cond_wait).of_eq rfl rfl
      exact State.Looped.waitNotified rest _ s' h' hrun
    · cases hrun
      exact h

theorem State.Looped.timedWait {s₀ s : State} (h : s₀.Looped s) (wakeups : List Flags) :
    s₀.Looped (JahSpotify.timedWait wakeups s) := by
  unfold JahSpotify.timedWait
  split_ifs
  · cases wakeups with
    | nil => exact h.loop_emit .pthread_cond_timedwait
    | cons f rest => exact (h.loop_emit .pthread_cond_timedwait).of_eq rfl rfl
  · exact h

theorem State.Looped.processEvents {s₀ : State} (sp : Nat) :
    ∀ (ts : List Int) (s : State) (r : Int × State), s₀.Looped s →
      JahSpotify.processEvents sp ts s = some r → s₀.Looped r.2
  | [], _, _, _, hrun => by cases hrun
  | t :: ts, s, r, h, hrun => by
    unfold JahSpotify.processEvents at hrun
    simp only [] at hrun
    split_ifs at hrun
    · exact State.Looped.processEvents sp ts _ r (h.loop_emit _) hrun
    · cases hrun
      exact h.loop_emit _

/-- The state in which an iteration of the loop tests `g_stop`, from the state `s₁` after
its wait and the result of its processing of events. -/
theorem mainLoop_turn (lib : Lib) (a : InitAnswers) (t : Turn) (ts : List Turn)
    (next_timeout : Int) (s : State) :
    mainLoop lib a (t :: ts) next_timeout s =
      match (if next_timeout = 0 then
          waitNotified t.wakeups ((s.setFlags t.atLock).emit (.signalInitialized 1))
        else some (timedWait t.wakeups (s.setFlags t.atLock))) with
      | none => none
      | some s₁ =>
        match processEvents a.sp t.timeouts
            (if t.conn_state = 0 then
              ((mainLoopDispatch lib s₁).emit (.sp_session_connectionstate a.sp)).emit
                (.log .conn_state_is_null)
            else if t.conn_state = a.SP_CONNECTION_STATE_DISCONNECTED then
              ((((mainLoopDispatch lib s₁).emit (.sp_session_connectionstate a.sp)).emit
                (.log .disconnected)).emit .signalDisconnected)
            else (mainLoopDispatch lib s₁).emit (.sp_session_connectionstate a.sp)) with
        | none => none
        | some (next_timeout, s₂) =>
          if t.stop ≠ 0 then some { s₂.emit .unlock_spotify with g_stop := t.stop }
          else mainLoop lib a ts next_timeout
            (({ s₂.emit .unlock_spotify with g_stop := t.stop } : State).emit .lock_notify) := by
  rw [mainLoop]

/-- When the loop of `nativeInitialize` ends, it has found `g_stop` set in the last of the
iterations it ran and not set in the ones before; it left `g_sess` alone and did not signal
`signalInitialized(0)`. -/
theorem mainLoop_spec (lib : Lib) (a : InitAnswers) {s₀ : State} :
    ∀ (turns : List Turn) (next_timeout : Int) (s s' : State), s₀.Looped s →
      mainLoop lib a turns next_timeout s = some s' →
      s₀.Looped s' ∧ s'.g_stop ≠ 0 ∧
        ∃ pre t post, turns = pre ++ t :: post ∧ (∀ x ∈ pre, x.stop = 0) ∧ t.stop ≠ 0 ∧
          s'.g_stop = t.stop
  | [], _, _, _, _, hrun => by
    rw [mainLoop] at hrun
    cases hrun
  | t :: ts, next_timeout, s, s', h, hrun => by
    rw [mainLoop_turn] at hrun
    have h₀ : s₀.Looped (s.setFlags t.atLock) := h.of_eq rfl rfl
    cases hw : (if next_timeout = 0 then
          waitNotified t.wakeups ((s.setFlags t.atLock).emit (.signalInitialized 1))
        else some (timedWait t.wakeups (s.setFlags t.atLock))) with
    | none =>
      rw [hw] at hrun
      cases hrun
    | some s₁ =>
      rw [hw] at hrun
      simp only [] at hrun
      have h₁ : s₀.Looped s₁ := by
        split_ifs at hw
        · exact State.Looped.waitNotified _ _ _ (h₀.loop_emit (.signalInitialized 1)) hw
        · cases hw
          exact h₀.timedWait _
      have h₂ : s₀.Looped (if t.conn_state = 0 then
              ((mainLoopDispatch lib s₁).emit (.sp_session_connectionstate a.sp)).emit
                (.log .conn_state_is_null)
            else if t.conn_state = a.SP_CONNECTION_STATE_DISCONNECTED then
              ((((mainLoopDispatch lib s₁).emit (.sp_session_connectionstate a.sp)).emit
                (.log .disconnected)).emit .signalDisconnected)
            else (mainLoopDispatch lib s₁).emit (.sp_session_connectionstate a.sp)) := by
        have hd := (h₁.mainLoopDispatch lib).loop_emit (.sp_session_connectionstate a.sp)
        exact State.Looped.loop_ite _ (hd.loop_emit (.log .conn_state_is_null))
          (State.Looped.loop_ite _ ((hd.loop_emit (.log .disconnected)).loop_emit .signalDisconnected) hd)
      cases hp : processEvents a.sp t.timeouts (if t.conn_state = 0 then
              ((mainLoopDispatch lib s₁).emit (.sp_session_connectionstate a.sp)).emit
                (.log .conn_state_is_null)
            else if t.conn_state = a.SP_CONNECTION_STATE_DISCONNECTED then
              ((((mainLoopDispatch lib s₁).emit (.sp_session_connectionstate a.sp)).emit
                (.log .disconnected)).emit .signalDisconnected)
            else (mainLoopDispatch lib s₁).emit (.sp_session_connectionstate a.sp)) with
      | none =>
        rw [hp] at hrun
        cases hrun
      | some r =>
        obtain ⟨nt, s₂⟩ := r
        rw [hp] at hrun
        simp only [] at hrun
        have h₃ : s₀.Looped ({ s₂.emit .unlock_spotify with g_stop := t.stop } : State) :=
          ((State.Looped.processEvents a.sp _ _ _ h₂ hp).loop_emit .unlock_spotify).of_eq rfl rfl
        by_cases hs : t.stop ≠ 0
        · rw [if_pos hs] at hrun
          cases hrun
          exact ⟨h₃, hs, [], t, ts, rfl, by simp, hs, rfl⟩
        · rw [if_neg hs] at hrun
          obtain ⟨hl, hstop, pre, t', post, hsplit, hpre, ht', hg⟩ :=
            mainLoop_spec lib a ts nt _ s' (h₃.loop_emit .lock_notify) hrun
          refine ⟨hl, hstop, t :: pre, t', post, by rw [hsplit]; rfl, ?_, ht', hg⟩
          intro x hx
          rcases List.mem_cons.mp hx with rfl | hx
          · simpa using hs
          · exact hpre x hx

/-- The wait for a notification ends when the thread is notified at the start or at one of
its wake-ups. -/
theorem waitNotified_returns :
    ∀ (snaps : List Flags) (s : State),
      (s.g_notify_do ≠ 0 ∨ s.g_playback_done ≠ 0 ∨
        ∃ f ∈ snaps, f.notify_do ≠ 0 ∨ f.playback_done ≠ 0) →
      ∃ s', waitNotified snaps s = some s'
  | [], s, h => by
    unfold waitNotified
    have hs : ¬ (s.g_notify_do = 0 ∧ s.g_playback_done = 0) := by
      rintro ⟨h1, h2⟩
      rcases h with h | h | ⟨f, hf, _⟩
      · exact h h1
      · exact h h2
      · simp at hf
    rw [if_neg hs]
    exact ⟨s, rfl⟩
  | f :: rest, s, h => by
    unfold waitNotified
    by_cases hs : s.g_notify_do = 0 ∧ s.g_playback_done = 0
    · rw [if_pos hs]
      apply waitNotified_returns rest
      rcases h with h | h | ⟨f', hf', hset⟩
      · exact absurd hs.1 h
      · exact absurd hs.2 h
      · rcases List.mem_cons.mp hf' with rfl | hf'
        · rcases hset with h1 | h1
          · exact Or.inl h1
          · exact Or.inr (Or.inl h1)
        · exact Or.inr (Or.inr ⟨f', hf', hset⟩)
    · rw [if_neg hs]
      exact ⟨s, rfl⟩

/-- The processing of events ends when the library stores a non-zero timeout at some call. -/
theorem processEvents_returns (sp : Nat) :
    ∀ (ts : List Int) (s : State), (∃ x ∈ ts, x ≠ 0) → ∃ r, processEvents sp ts s = some r
  | [], _, h => by
    obtain ⟨x, hx, _⟩ := h
    simp at hx
  | t :: ts, s, h => by
    unfold processEvents
    simp only []
    by_cases ht : t = 0
    · rw [if_pos ht]
      apply processEvents_returns sp ts
      obtain ⟨x, hx, hx0⟩ := h
      rcases List.mem_cons.mp hx with rfl | hx
      · exact absurd ht hx0
      · exact ⟨x, hx, hx0⟩
    · rw [if_neg ht]
      exact ⟨_, rfl⟩

/-- The loop of `nativeInitialize` ends when its iterations can be completed and one of them
finds `g_stop` set. -/
theorem mainLoop_returns (lib : Lib) (a : InitAnswers) (t : Turn) (post : List Turn)
    (ht : t.adequate) (hstop : t.stop ≠ 0) :
    ∀ (pre : List Turn) (next_timeout : Int) (s : State),
      (∀ x ∈ pre, x.stop = 0 ∧ x.adequate) →
      ∃ s', mainLoop lib a (pre ++ t :: post) next_timeout s = some s' := by
  have step : ∀ (u : Turn) (us : List Turn) (nt : Int) (s : State), u.adequate →
      ∃ (nt' : Int) (s₂ : State), mainLoop lib a (u :: us) nt s =
        if u.stop ≠ 0 then some { s₂.emit .unlock_spotify with g_stop := u.stop }
        else mainLoop lib a us nt'
          (({ s₂.emit .unlock_spotify with g_stop := u.stop } : State).emit .lock_notify) := by
    intro u us nt s hu
    obtain ⟨s₁, hw⟩ : ∃ s₁, (if nt = 0 then
          waitNotified u.wakeups ((s.setFlags u.atLock).emit (.signalInitialized 1))
        else some (timedWait u.wakeups (s.setFlags u.atLock))) = some s₁ := by
      split_ifs
      · exact waitNotified_returns _ _ hu.1
      · exact ⟨_, rfl⟩
    obtain ⟨r, hp⟩ := processEvents_returns a.sp u.timeouts
      (if u.conn_state = 0 then
          ((mainLoopDispatch lib s₁).emit (.sp_session_connectionstate a.sp)).emit
            (.log .conn_state_is_null)
        else if u.conn_state = a.SP_CONNECTION_STATE_DISCONNECTED then
          ((((mainLoopDispatch lib s₁).emit (.sp_session_connectionstate a.sp)).emit
            (.log .disconnected)).emit .signalDisconnected)
        else (mainLoopDispatch lib s₁).emit (.sp_session_connectionstate a.sp)) hu.2
    obtain ⟨nt', s₂⟩ := r
    refine ⟨nt', s₂, ?_⟩
    rw [mainLoop_turn, hw]
    simp only []
    rw [hp]
  intro pre
  induction pre with
  | nil =>
    intro nt s _
    obtain ⟨nt', s₂, hrun⟩ := step t post nt s ht
    rw [List.nil_append, hrun, if_pos hstop]
    exact ⟨_, rfl⟩
  | cons u pre ih =>
    intro nt s hpre
    obtain ⟨hu0, hua⟩ := hpre u (List.mem_cons_self _ _)
    obtain ⟨nt', s₂, hrun⟩ := step u (pre ++ t :: post) nt s hua
    rw [List.cons_append, hrun, if_neg (by simpa using hu0)]
    exact ih nt' _ (fun x hx => hpre x (List.mem_cons_of_mem _ hx))

/-- C14: if `sp_session_create` fails, `nativeInitialize` returns `1`, leaves `g_sess` as it
was and signals no `signalInitialized`. Otherwise, whenever it returns, the result is `0`,
`g_sess` is the new session, the loop has found `g_stop` set (in the last iteration it ran,
not in an earlier one), and the calls end with the release of the session followed by the
one `signalInitialized(0)`, which is the last call; and it does return when the iterations
can be completed and one of them finds `g_stop` set. -/
theorem nativeInitialize_result_and_signals (lib : Lib) (a : InitAnswers) (cacheFolder : Nat)
    (s : State) :
    (a.createError ≠ 0 →
      ∃ s', Java_jahspotify_impl_JahSpotifyImpl_nativeInitialize lib a cacheFolder s
          = some (1, s') ∧ s'.g_sess = s.g_sess ∧
        ∀ v, (.signalInitialized v) ∉ s'.since s) ∧
    (a.createError = 0 →
      (∀ r, Java_jahspotify_impl_JahSpotifyImpl_nativeInitialize lib a cacheFolder s = some r →
        r.1 = 0 ∧ r.2.g_sess = a.sp ∧ r.2.g_stop ≠ 0 ∧
        (∃ pre t post, a.turns = pre ++ t :: post ∧ (∀ x ∈ pre, x.stop = 0) ∧ t.stop ≠ 0) ∧
        ∃ before, r.2.since s = before ++ (.sp_session_release a.sp ::
            ((if a.nativeCacheFolder ≠ 0 then
                [.ReleaseStringUTFChars cacheFolder a.nativeCacheFolder] else [])
              ++ [.signalInitialized 0])) ∧
          (.signalInitialized 0) ∉ before) ∧
      (∀ pre t post, a.turns = pre ++ t :: post → (∀ x ∈ pre, x.stop = 0 ∧ x.adequate) →
        t.adequate → t.stop ≠ 0 →
        ∃ r, Java_jahspotify_impl_JahSpotifyImpl_nativeInitialize lib a cacheFolder s
          = some r)) := by
  constructor
  · intro hf
    unfold Java_jahspotify_impl_JahSpotifyImpl_nativeInitialize
    simp only []
    rw [if_pos hf]
    refine ⟨(((((s.emit .pthread_mutex_init_spotify).emit .pthread_mutex_init_notify).emit
      .pthread_cond_init_notify).emit (.GetStringUTFChars cacheFolder)).emit
      .sp_session_create).emit (.log .unable_to_create_session), rfl,
      by simp [State.emit], ?_⟩
    intro v hv
    have htr : ((((((s.emit .pthread_mutex_init_spotify).emit .pthread_mutex_init_notify).emit
        .pthread_cond_init_notify).emit (.GetStringUTFChars cacheFolder)).emit
        .sp_session_create).emit (.log .unable_to_create_session)).trace
        = s.trace ++ [.pthread_mutex_init_spotify, .pthread_mutex_init_notify,
          .pthread_cond_init_notify, .GetStringUTFChars cacheFolder, .sp_session_create,
          .log .unable_to_create_session] := by
      simp [State.emit]
    rw [State.since_trace _ s _ htr] at hv
    simp at hv
  · intro hok
    have hne : ¬ a.createError ≠ 0 := by simpa using hok
    constructor
    · intro r hrun
      unfold Java_jahspotify_impl_JahSpotifyImpl_nativeInitialize at hrun
      simp only [] at hrun
      rw [if_neg hne] at hrun
      cases hm : mainLoop lib a a.turns 0
          ({ ((({ (((((s.emit .pthread_mutex_init_spotify).emit .pthread_mutex_init_notify).emit
              .pthread_cond_init_notify).emit (.GetStringUTFChars cacheFolder)).emit
              .sp_session_create) with g_sess := a.sp } : State).emit
            (.sp_session_set_volume_normalization a.sp true)).emit .lock_notify) with
            g_stop := 0 } : State) with
      | none =>
        rw [hm] at hrun
        cases hrun
      | some s' =>
        rw [hm] at hrun
        simp only [] at hrun
        obtain ⟨⟨hsess, l, hl, hno⟩, hstop, pre, t, post, hsplit, hpre, ht, _⟩ :=
          mainLoop_spec lib a a.turns 0 _ s' (State.Looped.loop_refl _) hm
        have hsess' : s'.g_sess = a.sp := hsess
        cases hrun
        refine ⟨rfl, ?_, ?_, ⟨pre, t, post, hsplit, hpre, ht⟩,
          [.pthread_mutex_init_spotify, .pthread_mutex_init_notify, .pthread_cond_init_notify,
            .GetStringUTFChars cacheFolder, .sp_session_create,
            .sp_session_set_volume_normalization a.sp true, .lock_notify] ++ l
            ++ [.log .cleaning_up], ?_, ?_⟩
        · split_ifs <;> exact hsess'
        · split_ifs <;> exact hstop
        · apply State.since_append
          split_ifs <;> simp [State.emit, hl, hsess']
        · intro hmem
          simp only [List.mem_append, List.mem_cons, List.mem_singleton, List.not_mem_nil,
            or_false] at hmem
          rcases hmem with (hmem | hmem) | hmem
          · rcases hmem with h | h | h | h | h | h | h <;> cases h
          · exact hno _ hmem rfl
          · cases hmem
    · intro pre t post hsplit hpre ht hstop
      unfold Java_jahspotify_impl_JahSpotifyImpl_nativeInitialize
      simp only []
      rw [if_neg hne, hsplit]
      obtain ⟨s', hs'⟩ := mainLoop_returns lib a t post ht hstop pre 0
        ({ ((({ (((((s.emit .pthread_mutex_init_spotify).emit .pthread_mutex_init_notify).emit
              .pthread_cond_init_notify).emit (.GetStringUTFChars cacheFolder)).emit
              .sp_session_create) with g_sess := a.sp } : State).emit
            (.sp_session_set_volume_normalization a.sp true)).emit .lock_notify) with
            g_stop := 0 } : State) hpre
      rw [hs']
      exact ⟨_, rfl⟩

/-- Witness for C14: when the session cannot be created the instance returns `1`; when it
is created and the loop runs its two iterations, the second of which finds `g_stop` set,
the instance returns `0` with `g_sess` the new session `9`. -/
theorem nativeInitialize_result_and_signals_witness :
    (exInitFail.createError ≠ 0 ∧
      ∃ s', Java_jahspotify_impl_JahSpotifyImpl_nativeInitialize exLib exInitFail 300 exState
          = some (1, s') ∧ s'.g_sess = exState.g_sess ∧
        ∀ v, (.signalInitialized v) ∉ s'.since exState) ∧
    (exInit.createError = 0 ∧ exInit.turns = [exTurn0] ++ exTurn1 :: [] ∧
      exTurn0.stop = 0 ∧ exTurn0.adequate ∧ exTurn1.adequate ∧ exTurn1.stop ≠ 0 ∧
      ∃ r, Java_jahspotify_impl_JahSpotifyImpl_nativeInitialize exLib exInit 300 exState
          = some r ∧ r.1 = 0 ∧ r.2.g_sess = 9 ∧ r.2.g_stop ≠ 0 ∧
        ∃ before, r.2.since exState = before ++ [.sp_session_release 9,
            .ReleaseStringUTFChars 300 200, .signalInitialized 0] ∧
          (.signalInitialized 0) ∉ before) := by
  have ha0 : exTurn0.adequate := ⟨Or.inl (by decide), 50, by decide, by decide⟩
  have ha1 : exTurn1.adequate :=
    ⟨Or.inr (Or.inr ⟨⟨1, 0, 0⟩, by simp [exTurn1], Or.inl (by decide)⟩), 30, by decide,
      by decide⟩
  refine ⟨⟨by decide,
    (nativeInitialize_result_and_signals exLib exInitFail 300 exState).1 (by decide)⟩, ?_⟩
  have h := (nativeInitialize_result_and_signals exLib exInit 300 exState).2 rfl
  obtain ⟨r, hr⟩ := h.2 [exTurn0] exTurn1 [] rfl
    (fun x hx => by
      rw [List.mem_singleton] at hx
      subst hx
      exact ⟨rfl, ha0⟩) ha1 (by decide)
  obtain ⟨h1, h2, h3, _, before, h5, h6⟩ := h.1 r hr
  exact ⟨rfl, rfl, rfl, ha0, ha1, by decide, r, hr, h1, h2, h3, before, h5, h6⟩

end JahSpotify
